import Mathlib

/-!
Verification development for the breakdb DICOM collation pipeline.

This file gives a shallow embedding, in Lean 4, of the core of the
breakdb repository and proves (or refutes) the specification claims about
it.  The embedding covers:

* the geometry transform engine of src/breakdb/io/image.py
  (compute_resize_ratio, compute_resize_dimensions,
  compute_resize_transform, transform_coords,
  transform_coordinate_collection);
* the DICOM tag extraction and validation layer of src/breakdb/parse.py
  together with the generic accessors of src/breakdb/tag.py;
* the fragment merger of src/breakdb/merge.py (merge_tag, merge_sequence,
  merge_dataset, merge_dicom, make_database_entry).

Design notes for the embedding:

* Python numbers (ints and floats) are modelled as rationals; Python
  int() truncation is pyInt.
* A raw pydicom dataset is modelled as an association list from tag
  addresses (group, element pairs, exactly the hexadecimal addresses of
  src/breakdb/tag.py) to element values.  The code only ever descends two
  sequence levels (annotation sequence -> annotation objects, reference
  sequence -> reference object), so datasets are stratified in three
  levels DS2/DS1/DS0; a value at each level is either a primitive or a
  sequence of datasets of the level below.  Iterating a pydicom element
  yields its value list, hence multi-valued numeric elements are the
  PVal.lst constructor.
* A parsed record (the plain dict produced by parse_dataset) is the
  structure ParsedR with one optional field per distinct tag address the
  parser can emit.  All addresses emitted by the parser are distinct, so
  the structure representation is faithful to the dict.
* Exceptions are modelled with Except; the in-place mutation that
  merge_dataset performs on its destination dict is modelled by returning
  the partially updated destination next to the optional error, so that
  the caller (merge_dicom) observes exactly the partial updates the
  Python exception path leaves behind.
-/

/-! ## Rational helpers -/

/-- Python int() truncation toward zero of a rational number. -/
def pyInt (q : ℚ) : ℤ := if 0 ≤ q then ⌊q⌋ else -⌊-q⌋

/-! ## Geometry transform engine (src/breakdb/io/image.py) -/

/-- The value of sys.maxsize * 1.0 on a 64-bit platform, used by
compute_resize_ratio as the stand-in for an unbounded maximum scale when
upscaling is allowed. -/
def maxScale : ℚ := 9223372036854775808

/-- compute_resize_ratio of src/breakdb/io/image.py: the minimum of the
maximum allowed scale and the two per-axis target ratios. -/
def compute_resize_ratio (width height target_width target_height : ℚ)
    (no_upscale : Bool) : ℚ :=
  min (min (if no_upscale then 1 else maxScale) (target_width / width))
    (target_height / height)

/-- compute_resize_dimensions of src/breakdb/io/image.py.  A target
dimension of zero models a falsy (absent) target in Python and defaults
to the original dimension on that axis. -/
def compute_resize_dimensions (width height target_width target_height : ℚ)
    (preserve_aspect_ratio no_upscale : Bool) : ℤ × ℤ :=
  let tw := if target_width = 0 then width else target_width
  let th := if target_height = 0 then height else target_height
  if preserve_aspect_ratio then
    let ratio := compute_resize_ratio width height tw th no_upscale
    (pyInt (min ((⌊ratio * width⌋ : ℚ)) tw),
     pyInt (min ((⌊ratio * height⌋ : ℚ)) th))
  else
    (if no_upscale && decide (width < tw) then pyInt width else pyInt tw,
     if no_upscale && decide (height < th) then pyInt height else pyInt th)

/-- compute_resize_transform of src/breakdb/io/image.py: the centering
origin (as Python ints) and the per-axis scaling ratios.  A target
dimension of zero models a falsy (absent) target and defaults to the
resize dimension on that axis. -/
def compute_resize_transform (width height target_width target_height
    resize_width resize_height : ℚ) : (ℤ × ℤ) × (ℚ × ℚ) :=
  let th := if target_height = 0 then resize_height else target_height
  let tw := if target_width = 0 then resize_width else target_width
  ((pyInt ((tw - resize_width) / 2), pyInt ((th - resize_height) / 2)),
   (resize_width / width, resize_height / height))

/-- The even-indexed entries coords[0::2] of a flat coordinate list. -/
def sliceEven : List ℚ → List ℚ
  | [] => []
  | [x] => [x]
  | x :: _ :: rest => x :: sliceEven rest

/-- The odd-indexed entries coords[1::2] of a flat coordinate list. -/
def sliceOdd : List ℚ → List ℚ
  | [] => []
  | [_] => []
  | _ :: y :: rest => y :: sliceOdd rest

/-- The interleaving np.insert(ys, np.arange(len xs), xs) performed at the
end of transform_coords: element i of xs is inserted directly before
element i of ys, recovering the flat alternating layout. -/
def interleave : List ℚ → List ℚ → List ℚ
  | [], ys => ys
  | x :: xs, [] => x :: interleave xs []
  | x :: xs, y :: ys => x :: y :: interleave xs ys

/-- transform_coords of src/breakdb/io/image.py: split a flat coordinate
list into x and y components, apply the affine transform per axis and
re-interleave. -/
def transform_coords (coords : List ℚ) (origin ratios : ℚ × ℚ) : List ℚ :=
  interleave ((sliceEven coords).map (fun x => x * ratios.1 + origin.1))
    ((sliceOdd coords).map (fun y => y * ratios.2 + origin.2))

/-- transform_coordinate_collection of src/breakdb/io/image.py, which
short-circuits on the exact identity transform. -/
def transform_coordinate_collection (coord_list : List (List ℚ))
    (origin ratios : ℚ × ℚ) : List (List ℚ) :=
  if origin = (0, 0) ∧ ratios = (1, 1) then coord_list
  else coord_list.map (fun coords => transform_coords coords origin ratios)

/-! ## Raw DICOM datasets -/

/-- A DICOM tag address: the (group, element) pair of src/breakdb/tag.py. -/
abbrev Addr := Nat × Nat

/-- A primitive DICOM element value: a string, a single number, or a
multi-valued numeric list. -/
inductive PVal : Type where
  | str : String → PVal
  | num : ℚ → PVal
  | lst : List ℚ → PVal
deriving DecidableEq, Repr

/-- An innermost dataset (annotation object or reference object): only
primitive element values occur at this depth in this code base. -/
abbrev DS0 := List (Addr × PVal)

/-- An element value inside a top-level sequence item: a primitive or a
sequence of innermost datasets. -/
inductive V1 : Type where
  | prim : PVal → V1
  | sq : List DS0 → V1
deriving DecidableEq, Repr

/-- A sequence item of a top-level dataset (an annotation sequence item
or the reference sequence item). -/
abbrev DS1 := List (Addr × V1)

/-- An element value of a top-level dataset. -/
inductive V2 : Type where
  | prim : PVal → V2
  | sq : List DS1 → V2
deriving DecidableEq, Repr

/-- A top-level DICOM dataset as read from one file. -/
abbrev DS2 := List (Addr × V2)

/-- Embed an innermost dataset one stratum up (the values are unchanged;
only the stratification index moves). -/
def liftDS0 (ds : DS0) : DS1 := ds.map (fun e => (e.1, V1.prim e.2))

/-- Embed a depth-1 value into a top-level value. -/
def liftV1 : V1 → V2
  | .prim p => .prim p
  | .sq items => .sq (items.map liftDS0)

/-- Element lookup in a dataset: the first element with the given
address, mirroring dict/Dataset indexing. -/
def dsGet {α : Type} : List (Addr × α) → Addr → Option α
  | [], _ => none
  | (a, v) :: rest, addr => if a = addr then some v else dsGet rest addr

/-! ### Tag addresses (src/breakdb/tag.py) -/

def ANN_COUNT : Addr := (0x0070, 0x0021)

def ANN_DATA : Addr := (0x0070, 0x0022)

def ANN_DIMENSIONS : Addr := (0x0070, 0x0020)

def ANN_OBJECT : Addr := (0x0070, 0x0009)

def ANN_SEQ : Addr := (0x0070, 0x0001)

def ANN_TYPE : Addr := (0x0070, 0x0023)

def ANN_UNITS : Addr := (0x0070, 0x0005)

def COM_SOP_CLASS : Addr := (0x0008, 0x0016)

def COM_SOP_INSTANCE : Addr := (0x0008, 0x0018)

def COM_SERIES : Addr := (0x0020, 0x000e)

def COM_STUDY : Addr := (0x0020, 0x000d)

def MISC_BODY_PART : Addr := (0x0018, 0x0015)

def PIX_BITS_ALLOCATED : Addr := (0x0028, 0x0100)

def PIX_BITS_STORED : Addr := (0x0028, 0x0101)

def PIX_COLUMNS : Addr := (0x0028, 0x0011)

def PIX_DATA : Addr := (0x7fe0, 0x0010)

def PIX_PHOTOMETRIC : Addr := (0x0028, 0x0004)

def PIX_REPRESENTATION : Addr := (0x0028, 0x0103)

def PIX_ROWS : Addr := (0x0028, 0x0010)

def PIX_SAMPLES : Addr := (0x0028, 0x0002)

def REF_OBJECT : Addr := (0x0008, 0x1140)

def REF_SEQ : Addr := (0x0008, 0x1115)

/-- ReferenceTag.SERIES shares its address with CommonTag.SERIES. -/
def REF_SERIES : Addr := (0x0020, 0x000e)

def REF_SOP_CLASS : Addr := (0x0008, 0x1150)

def REF_SOP_INSTANCE : Addr := (0x0008, 0x1155)

def SCL_INTERCEPT : Addr := (0x0028, 0x1052)

def SCL_SLOPE : Addr := (0x0028, 0x1053)

def SCL_TYPE : Addr := (0x0028, 0x1054)

def WIN_CENTER : Addr := (0x0028, 0x1050)

def WIN_WIDTH : Addr := (0x0028, 0x1051)

/-! ## Parsed records and merge-side data model -/

/-- The reference dictionary parse_reference builds: the referenced SOP
class and instance identifiers (read from the reference object) and the
series identifier (read from the reference sequence item). -/
structure RefRecord : Type where
  sopClass : PVal
  sopInstance : PVal
  series : V1
deriving DecidableEq, Repr

/-- A parsed record: the plain dict produced by parse_dataset /
parse_dicom, with one optional field per tag address the parser can
emit.  windowWidth is WindowingTag.WIDTH. -/
structure ParsedR : Type where
  sopClass : Option V2
  sopInstance : Option V2
  series : Option V2
  study : Option V2
  bodyPart : Option V2
  columns : Option V2
  rows : Option V2
  intercept : Option V2
  slope : Option V2
  scalingType : Option V2
  center : Option V2
  windowWidth : Option V2
  annSeq : Option (List (List ℚ))
  pixelData : Option V2
  ref : Option RefRecord
deriving DecidableEq, Repr

/-- The record with no tags at all (an empty dict). -/
def emptyParsed : ParsedR :=
  ⟨none, none, none, none, none, none, none, none, none, none, none, none,
   none, none, none⟩

/-- The scalar-valued tags that merge_dataset folds one by one, plus the
pixel payload tag (PixelTag.DATA). -/
inductive DTag : Type where
  | sopClass
  | sopInstance
  | series
  | study
  | bodyPart
  | columns
  | rows
  | intercept
  | slope
  | scalingType
  | center
  | windowWidth
  | pixelData
deriving DecidableEq, Repr

/-- Reading one scalar tag of a parsed record (has_tag / get_tag of
src/breakdb/tag.py specialized to the dict representation). -/
def getTag (d : ParsedR) : DTag → Option V2
  | .sopClass => d.sopClass
  | .sopInstance => d.sopInstance
  | .series => d.series
  | .study => d.study
  | .bodyPart => d.bodyPart
  | .columns => d.columns
  | .rows => d.rows
  | .intercept => d.intercept
  | .slope => d.slope
  | .scalingType => d.scalingType
  | .center => d.center
  | .windowWidth => d.windowWidth
  | .pixelData => d.pixelData

/-- Writing one scalar tag of a parsed record (dict.update with a
single-key dict). -/
def setTag (d : ParsedR) : DTag → V2 → ParsedR
  | .sopClass, v => { d with sopClass := some v }
  | .sopInstance, v => { d with sopInstance := some v }
  | .series, v => { d with series := some v }
  | .study, v => { d with study := some v }
  | .bodyPart, v => { d with bodyPart := some v }
  | .columns, v => { d with columns := some v }
  | .rows, v => { d with rows := some v }
  | .intercept, v => { d with intercept := some v }
  | .slope, v => { d with slope := some v }
  | .scalingType, v => { d with scalingType := some v }
  | .center, v => { d with center := some v }
  | .windowWidth, v => { d with windowWidth := some v }
  | .pixelData, v => { d with pixelData := some v }

/-! ## Parser (src/breakdb/parse.py) -/

/-- The parse-time error taxonomy.  typeMismatch stands for a Python
TypeError (iterating or taking the length of a single number), which none
of the except clauses in the source catch. -/
inductive PErr : Type where
  | missingTag (a : Addr)
  | missingSequence (a : Addr)
  | malformedSequence (a : Addr)
  | typeMismatch
  | parsingError
deriving DecidableEq, Repr

/-- Python len() of a primitive element value; a single number has no
length (a TypeError in Python, rendered as none). -/
def pvLen : PVal → Option Nat
  | .str s => some s.length
  | .num _ => none
  | .lst l => some l.length

/-- get_tag of src/breakdb/tag.py on a top-level dataset. -/
def getTag2 (ds : DS2) (a : Addr) : Except PErr V2 :=
  match dsGet ds a with
  | some v => .ok v
  | none => .error (.missingTag a)

/-- get_tag on a sequence-item dataset. -/
def getTag1 (ds : DS1) (a : Addr) : Except PErr V1 :=
  match dsGet ds a with
  | some v => .ok v
  | none => .error (.missingTag a)

/-- get_tag on an innermost dataset. -/
def getTag0 (ds : DS0) (a : Addr) : Except PErr PVal :=
  match dsGet ds a with
  | some v => .ok v
  | none => .error (.missingTag a)

/-- get_sequence of src/breakdb/tag.py on a top-level dataset: the tag
must exist and its value must be a sequence. -/
def getSeq2 (ds : DS2) (a : Addr) : Except PErr (List DS1) :=
  match dsGet ds a with
  | none => .error (.missingSequence a)
  | some (.prim _) => .error (.malformedSequence a)
  | some (.sq items) => .ok items

/-- get_tag_at of src/breakdb/tag.py on a top-level dataset: index into a
sequence, failing when the element is not a sequence or too short. -/
def getTagAt2 (ds : DS2) (index : Nat) (a : Addr) : Except PErr DS1 :=
  match dsGet ds a with
  | none => .error (.missingSequence a)
  | some (.prim _) => .error (.malformedSequence a)
  | some (.sq items) =>
    match items.get? index with
    | some item => .ok item
    | none => .error (.malformedSequence a)

/-- get_tag_at on a sequence-item dataset. -/
def getTagAt1 (ds : DS1) (index : Nat) (a : Addr) : Except PErr DS0 :=
  match dsGet ds a with
  | none => .error (.missingSequence a)
  | some (.prim _) => .error (.malformedSequence a)
  | some (.sq items) =>
    match items.get? index with
    | some item => .ok item
    | none => .error (.malformedSequence a)

/-- has_annotation of src/breakdb/parse.py (source name has_annotation):
all five component tags are present, the count is 5, there are 2 planar
dimensions, the type is POLYLINE, the units are PIXEL and the data
element has length 10. -/
def has_annot (obj : DS0) : Bool :=
  (dsGet obj ANN_COUNT).isSome && (dsGet obj ANN_DATA).isSome &&
  (dsGet obj ANN_DIMENSIONS).isSome && (dsGet obj ANN_TYPE).isSome &&
  (dsGet obj ANN_UNITS).isSome &&
  (dsGet obj ANN_COUNT == some (.num 5)) &&
  (dsGet obj ANN_DIMENSIONS == some (.num 2)) &&
  (dsGet obj ANN_TYPE == some (.str "POLYLINE")) &&
  (dsGet obj ANN_UNITS == some (.str "PIXEL")) &&
  ((dsGet obj ANN_DATA).map pvLen == some (some 10))

/-- The annotation objects of one annotation sequence item: the value of
its AnnotationTag.OBJECT element when that is a sequence, else nothing
(the has_sequence guard in the source). -/
def objsOfItem (item : DS1) : List DS0 :=
  match dsGet item ANN_OBJECT with
  | some (.sq objs) => objs
  | _ => []

/-- All annotation objects of an annotation sequence. -/
def allObjs (items : List DS1) : List DS0 :=
  items.flatMap objsOfItem

/-- has_annotations of src/breakdb/parse.py (source name
has_annotations): some annotation object of the annotation sequence is
well formed. -/
def has_annots (ds : DS2) : Bool :=
  match dsGet ds ANN_SEQ with
  | some (.sq items) => items.any (fun item => (objsOfItem item).any has_annot)
  | _ => false

/-- has_misc of src/breakdb/parse.py. -/
def has_misc (ds : DS2) : Bool :=
  (dsGet ds MISC_BODY_PART).isSome

/-- has_pixels of src/breakdb/parse.py. -/
def has_pixels (ds : DS2) : Bool :=
  (dsGet ds PIX_BITS_ALLOCATED).isSome && (dsGet ds PIX_BITS_STORED).isSome &&
  (dsGet ds PIX_COLUMNS).isSome && (dsGet ds PIX_DATA).isSome &&
  (dsGet ds PIX_PHOTOMETRIC).isSome && (dsGet ds PIX_REPRESENTATION).isSome &&
  (dsGet ds PIX_ROWS).isSome && (dsGet ds PIX_SAMPLES).isSome

/-- has_reference of src/breakdb/parse.py: the reference sequence exists,
holds exactly one item, and that item has exactly two elements. -/
def has_reference (ds : DS2) : Bool :=
  match dsGet ds REF_SEQ with
  | some (.sq [item]) => item.length == 2
  | _ => false

/-- has_scaling of src/breakdb/parse.py. -/
def has_scaling (ds : DS2) : Bool :=
  (dsGet ds SCL_INTERCEPT).isSome && (dsGet ds SCL_SLOPE).isSome &&
  (dsGet ds SCL_TYPE).isSome

/-- has_windowing of src/breakdb/parse.py. -/
def has_windowing (ds : DS2) : Bool :=
  (dsGet ds WIN_CENTER).isSome && (dsGet ds WIN_WIDTH).isSome

/-- parse_annotation of src/breakdb/parse.py (source name
parse_annotation): the list of coordinates of the data element.  The
Python source iterates the element, which yields the value list of a
multi-valued element and raises a TypeError on a single number; annotation
data elements are numeric multi-valued in every dataset this project
reads, and non-list shapes are folded into typeMismatch. -/
def parse_annot (obj : DS0) : Except PErr (List ℚ) :=
  match dsGet obj ANN_DATA with
  | none => .error (.missingTag ANN_DATA)
  | some (.lst l) => .ok l
  | some _ => .error .typeMismatch

/-- The inner loop of parse_annotations: parse every annotation object of
one list in order. -/
def parseObjList : List DS0 → Except PErr (List (List ℚ))
  | [] => .ok []
  | obj :: objs => do
    let a ← parse_annot obj
    let rest ← parseObjList objs
    .ok (a :: rest)

/-- The outer loop of parse_annotations: concatenate the parses of the
annotation objects of every sequence item in order. -/
def collectAnns : List DS1 → Except PErr (List (List ℚ))
  | [] => .ok []
  | item :: items => do
    let xs ← parseObjList (objsOfItem item)
    let ys ← collectAnns items
    .ok (xs ++ ys)

/-- parse_annotations of src/breakdb/parse.py (source name
parse_annotations): gather the data of every annotation object of the
annotation sequence, failing with MissingTag when none was collected. -/
def parse_annots (ds : DS2) : Except PErr (List (List ℚ)) := do
  let items ← getSeq2 ds ANN_SEQ
  let anns ← collectAnns items
  if anns.isEmpty then .error (.missingTag ANN_OBJECT) else .ok anns

/-- parse_common of src/breakdb/parse.py: the four mandatory
identifiers. -/
def parse_common (ds : DS2) : Except PErr (V2 × V2 × V2 × V2) := do
  let c ← getTag2 ds COM_SOP_CLASS
  let i ← getTag2 ds COM_SOP_INSTANCE
  let s ← getTag2 ds COM_SERIES
  let st ← getTag2 ds COM_STUDY
  .ok (c, i, s, st)

/-- parse_misc of src/breakdb/parse.py. -/
def parse_misc (ds : DS2) : Except PErr V2 :=
  getTag2 ds MISC_BODY_PART

/-- parse_pixels of src/breakdb/parse.py: only columns and rows are kept
in the parsed record. -/
def parse_pixels (ds : DS2) : Except PErr (V2 × V2) := do
  let c ← getTag2 ds PIX_COLUMNS
  let r ← getTag2 ds PIX_ROWS
  .ok (c, r)

/-- parse_reference of src/breakdb/parse.py: the first item of the
reference sequence supplies the series identifier; its first
ReferenceTag.OBJECT item supplies the referenced SOP class and instance
identifiers. -/
def parse_reference (ds : DS2) : Except PErr RefRecord := do
  let seq ← getTagAt2 ds 0 REF_SEQ
  let obj ← getTagAt1 seq 0 REF_OBJECT
  let c ← getTag0 obj REF_SOP_CLASS
  let i ← getTag0 obj REF_SOP_INSTANCE
  let s ← getTag1 seq REF_SERIES
  .ok ⟨c, i, s⟩

/-- parse_scaling of src/breakdb/parse.py. -/
def parse_scaling (ds : DS2) : Except PErr (V2 × V2 × V2) := do
  let i ← getTag2 ds SCL_INTERCEPT
  let s ← getTag2 ds SCL_SLOPE
  let t ← getTag2 ds SCL_TYPE
  .ok (i, s, t)

/-- parse_windowing of src/breakdb/parse.py. -/
def parse_windowing (ds : DS2) : Except PErr (V2 × V2) := do
  let c ← getTag2 ds WIN_CENTER
  let w ← getTag2 ds WIN_WIDTH
  .ok (c, w)

/-- One conditional step of parse_dataset: when the group predicate
holds, run the group parser and fold its result into the record,
otherwise leave the record unchanged. -/
def stage {α : Type} (b : Bool) (m : Except PErr α)
    (upd : ParsedR → α → ParsedR) (p : ParsedR) : Except PErr ParsedR :=
  if b then do
    let x ← m
    pure (upd p x)
  else pure p

/-- The record holding only the four common identifiers. -/
def commonRecord (c i s st : V2) : ParsedR :=
  { emptyParsed with
    sopClass := some c, sopInstance := some i, series := some s,
    study := some st }

/-- Folding parsed annotations into a record (dict.update). -/
def updAnns (p : ParsedR) (anns : List (List ℚ)) : ParsedR :=
  { p with annSeq := some anns }

/-- Folding the parsed body part into a record. -/
def updMisc (p : ParsedR) (b : V2) : ParsedR :=
  { p with bodyPart := some b }

/-- Folding the parsed pixel geometry into a record. -/
def updPixels (p : ParsedR) (cr : V2 × V2) : ParsedR :=
  { p with columns := some cr.1, rows := some cr.2 }

/-- Folding the parsed reference dictionary into a record. -/
def updRef (p : ParsedR) (r : RefRecord) : ParsedR :=
  { p with ref := some r }

/-- Folding the parsed scaling values into a record. -/
def updScaling (p : ParsedR) (ist : V2 × V2 × V2) : ParsedR :=
  { p with intercept := some ist.1, slope := some ist.2.1,
           scalingType := some ist.2.2 }

/-- Folding the parsed windowing values into a record. -/
def updWindowing (p : ParsedR) (cw : V2 × V2) : ParsedR :=
  { p with center := some cw.1, windowWidth := some cw.2 }

/-- parse_dataset of src/breakdb/parse.py: always parse the common tags,
then fold in each optional group guarded by its has_X predicate, in the
source order (annotations, misc, pixels, reference, scaling,
windowing). -/
def parse_dataset (ds : DS2) : Except PErr ParsedR := do
  let (c, i, s, st) ← parse_common ds
  let p1 ← stage (has_annots ds) (parse_annots ds) updAnns
    (commonRecord c i s st)
  let p2 ← stage (has_misc ds) (parse_misc ds) updMisc p1
  let p3 ← stage (has_pixels ds) (parse_pixels ds) updPixels p2
  let p4 ← stage (has_reference ds) (parse_reference ds) updRef p3
  let p5 ← stage (has_scaling ds) (parse_scaling ds) updScaling p4
  let p6 ← stage (has_windowing ds) (parse_windowing ds) updWindowing p5
  pure p6

/-- The first post-parse step of parse_dicom: when pixel geometry was
parsed, store the source file path under the pixel payload tag. -/
def setPixelPath (file_path : String) (p : ParsedR) : ParsedR :=
  if p.columns.isSome && p.rows.isSome then
    { p with pixelData := some (.prim (.str file_path)) }
  else p

/-- The second post-parse step of parse_dicom: a parsed reference
overwrites the three common identifiers with the referenced ones. -/
def applyRef (p : ParsedR) : ParsedR :=
  match p.ref with
  | some r =>
    { p with
      sopClass := some (V2.prim r.sopClass),
      sopInstance := some (V2.prim r.sopInstance),
      series := some (liftV1 r.series) }
  | none => p

/-- parse_dicom of src/breakdb/parse.py, with the file contents supplied
as an already-decoded dataset.  After parse_dataset succeeds the pixel
payload tag is set to the source file path whenever pixel geometry was
parsed, and a parsed reference overwrites the three common identifiers.
With skip_broken the structural error kinds produce (path, empty)
instead of propagating as a ParsingError; a TypeError is not caught. -/
def parse_dicom (file_path : String) (ds : DS2) (skip_broken : Bool) :
    Except PErr (String × Option ParsedR) :=
  match parse_dataset ds with
  | .ok parsed => .ok (file_path, some (applyRef (setPixelPath file_path parsed)))
  | .error .typeMismatch => .error .typeMismatch
  | .error _ =>
    if skip_broken then .ok (file_path, none) else .error .parsingError

/-- The grouping key organize_parsed computes for a parsed record: its
SOP instance and series identifiers. -/
def organizeKey (p : ParsedR) : Option (V2 × V2) :=
  match p.sopInstance, p.series with
  | some i, some s => some (i, s)
  | _, _ => none

/-! ## Fragment merger (src/breakdb/merge.py) -/

/-- The merge-time error taxonomy of src/breakdb/merge.py. -/
inductive MergeErr : Type where
  | tagConflict (t : DTag)
  | duplicateDICOM
  | missingTag
  | mergingError
deriving DecidableEq, Repr

/-- merge_tag of src/breakdb/merge.py: no-op when the source lacks the
tag, conflict when both carry different values, otherwise the source
value is written into the destination. -/
def merge_tag (src dest : ParsedR) (tag : DTag) : Except MergeErr ParsedR :=
  match getTag src tag with
  | none => .ok dest
  | some v =>
    match getTag dest tag with
    | some w => if w ≠ v then .error (.tagConflict tag) else .ok (setTag dest tag v)
    | none => .ok (setTag dest tag v)

/-- merge_sequence of src/breakdb/merge.py specialized, as in the source,
to AnnotationTag.SEQUENCE: concatenate the source annotation list onto
the destination one. -/
def merge_sequence (src dest : ParsedR) : ParsedR :=
  match src.annSeq with
  | none => dest
  | some l => { dest with annSeq := some (dest.annSeq.getD [] ++ l) }

/-- The ordered tag list of merge_dataset (merge.py lines 138-151). -/
def scalarTags : List DTag :=
  [.sopClass, .sopInstance, .series, .study, .bodyPart, .columns, .rows,
   .intercept, .slope, .scalingType, .center, .windowWidth]

/-- The per-tag loop of merge_dataset.  Python mutates the destination
dict in place, so on a conflict the tags already processed stay updated:
the partially updated destination is returned next to the error. -/
def mergeTags (src : ParsedR) : ParsedR → List DTag → ParsedR × Option MergeErr
  | dest, [] => (dest, none)
  | dest, t :: ts =>
    match merge_tag src dest t with
    | .error e => (dest, some e)
    | .ok d => mergeTags src d ts

/-- merge_dataset of src/breakdb/merge.py: fold the scalar tags, then the
annotation sequence, then the pixel payload tag, whose TagConflict is
rethrown as DuplicateDICOM.  The first component is the state of the
destination dict when the call returns or raises. -/
def merge_dataset (src dest : ParsedR) : ParsedR × Option MergeErr :=
  match mergeTags src dest scalarTags with
  | (d, some e) => (d, some e)
  | (d, none) =>
    let d := merge_sequence src d
    match merge_tag src d .pixelData with
    | .error _ => (d, some .duplicateDICOM)
    | .ok d2 => (d2, none)

/-- Modelled from the spec: remove_duplicates is imported by
src/breakdb/merge.py from breakdb.util but is absent from the source
tree.  Per the specification it removes annotations that are exact
duplicates (same coordinate sequence), keeping one copy of each value. -/
def remove_duplicates (l : List (List ℚ)) : List (List ℚ) :=
  l.dedup

/-- One cell of a database row (the Python row holds strings, numbers,
booleans and the annotation list). -/
inductive Cell : Type where
  | val (v : V2)
  | flag (b : Bool)
  | anns (l : List (List ℚ))
deriving DecidableEq, Repr

/-- get_tag on a merged record, raising MissingTag when absent. -/
def reqTag (v : Option V2) : Except MergeErr V2 :=
  match v with
  | some x => .ok x
  | none => .error .missingTag

/-- get_tag for the annotation sequence of a merged record. -/
def reqAnn (v : Option (List (List ℚ))) : Except MergeErr (List (List ℚ)) :=
  match v with
  | some x => .ok x
  | none => .error .missingTag

/-- make_database_entry of src/breakdb/merge.py: the eleven row cells in
schema order. -/
def make_database_entry (merged : ParsedR) : Except MergeErr (List Cell) := do
  let instId ← reqTag merged.sopInstance
  let seriesId ← reqTag merged.series
  let studyId ← reqTag merged.study
  let anns ← reqAnn merged.annSeq
  let bodyPartCell :=
    match merged.bodyPart with
    | some b => Cell.val b
    | none => Cell.val (.prim (.str "Unknown"))
  let cols ← reqTag merged.columns
  let rws ← reqTag merged.rows
  let pd ← reqTag merged.pixelData
  .ok [Cell.val instId, Cell.val seriesId, Cell.val studyId,
       Cell.flag (decide (0 < anns.length)), bodyPartCell,
       Cell.val cols, Cell.val rws, Cell.val pd,
       Cell.flag (merged.intercept.isSome && merged.slope.isSome),
       Cell.flag (merged.center.isSome && merged.windowWidth.isSome),
       Cell.anns (remove_duplicates anns)]

/-- The starting accumulator of merge_dicom: a dict holding only an empty
annotation list. -/
def emptyMerged : ParsedR :=
  { emptyParsed with annSeq := some [] }

/-- The folding loop of merge_dicom: each fragment is merged into the
accumulator; a DuplicateDICOM is tolerated under ignore_duplicates and a
TagConflict under skip_broken (the loop then continues from the partially
updated accumulator the in-place mutation left behind); otherwise the
group aborts with MergingError. -/
def mergeLoop (skip_broken ignore_duplicates : Bool) :
    ParsedR → List ParsedR → Except MergeErr ParsedR
  | merged, [] => .ok merged
  | merged, ds :: rest =>
    match merge_dataset ds merged with
    | (m, none) => mergeLoop skip_broken ignore_duplicates m rest
    | (m, some .duplicateDICOM) =>
      if ignore_duplicates then mergeLoop skip_broken ignore_duplicates m rest
      else .error .mergingError
    | (m, some (.tagConflict _)) =>
      if skip_broken then mergeLoop skip_broken ignore_duplicates m rest
      else .error .mergingError
    | (_, some _) => .error .mergingError

/-- merge_dicom of src/breakdb/merge.py: fold all fragments of one group,
then project the row; a MissingTag from the projection yields an empty
row under skip_broken and a MergingError otherwise. -/
def merge_dicom (skip_broken ignore_duplicates : Bool)
    (to_merge : List ParsedR) : Except MergeErr (List Cell) :=
  match mergeLoop skip_broken ignore_duplicates emptyMerged to_merge with
  | .error e => .error e
  | .ok merged =>
    match make_database_entry merged with
    | .ok row => .ok row
    | .error _ => if skip_broken then .ok [] else .error .mergingError

/-- Two records are compatible at a tag when they do not both carry the
tag with different values (the condition under which merge_tag cannot
conflict there). -/
def compat (src dest : ParsedR) (t : DTag) : Prop :=
  ∀ v w, getTag src t = some v → getTag dest t = some w → v = w

/-- The annotation contribution of a fragment: its annotation list, or
nothing. -/
def annOf (p : ParsedR) : List (List ℚ) :=
  p.annSeq.getD []

/-! ## Specification-side definitions used for comparison -/

/-- The centering-offset formula exactly as the specification writes it:
origin is ((target_w - resize_w)/2, (target_h - resize_h)/2), with exact
division. -/
def specResizeOrigin (target_width target_height resize_width
    resize_height : ℚ) : ℚ × ℚ :=
  ((target_width - resize_width) / 2, (target_height - resize_height) / 2)

/-- The annotation well-formedness condition as the specification words
it: exactly 5 points, 2 planar dimensions, type POLYLINE, units PIXEL,
and a data sequence of exactly 10 values. -/
def specWellFormedAnnot (obj : DS0) : Bool :=
  (dsGet obj ANN_COUNT == some (.num 5)) &&
  (dsGet obj ANN_DIMENSIONS == some (.num 2)) &&
  (dsGet obj ANN_TYPE == some (.str "POLYLINE")) &&
  (dsGet obj ANN_UNITS == some (.str "PIXEL")) &&
  (match dsGet obj ANN_DATA with
   | some (.lst l) => l.length == 10
   | _ => false)

/-! ## Concrete records used by counterexamples and witnesses -/

/-- A fragment carrying one identity and one annotation. -/
def fragAnnOne : ParsedR :=
  { emptyParsed with
    sopInstance := some (.prim (.str "I")),
    series := some (.prim (.str "S")),
    annSeq := some [[1, 1, 2, 2, 3, 3, 4, 4, 1, 1]] }

/-- A fragment sharing fragAnnOne's identity but carrying a different
annotation. -/
def fragAnnTwo : ParsedR :=
  { emptyParsed with
    sopInstance := some (.prim (.str "I")),
    series := some (.prim (.str "S")),
    annSeq := some [[5, 5, 6, 6, 7, 7, 8, 8, 5, 5]] }

/-- The expected merged record when fragAnnOne is folded before
fragAnnTwo. -/
def mergedOneTwo : ParsedR :=
  { emptyParsed with
    sopInstance := some (.prim (.str "I")),
    series := some (.prim (.str "S")),
    annSeq := some [[1, 1, 2, 2, 3, 3, 4, 4, 1, 1],
                    [5, 5, 6, 6, 7, 7, 8, 8, 5, 5]] }

/-- The expected merged record for the opposite fold order. -/
def mergedTwoOne : ParsedR :=
  { emptyParsed with
    sopInstance := some (.prim (.str "I")),
    series := some (.prim (.str "S")),
    annSeq := some [[5, 5, 6, 6, 7, 7, 8, 8, 5, 5],
                    [1, 1, 2, 2, 3, 3, 4, 4, 1, 1]] }

/-- A complete base fragment: identity, body part, pixel geometry and a
pixel payload location. -/
def fragBase : ParsedR :=
  { emptyParsed with
    sopClass := some (.prim (.str "C")),
    sopInstance := some (.prim (.str "I")),
    series := some (.prim (.str "S")),
    study := some (.prim (.str "T")),
    bodyPart := some (.prim (.str "ARM")),
    columns := some (.prim (.num 64)),
    rows := some (.prim (.num 32)),
    pixelData := some (.prim (.str "a.dcm")) }

/-- A fragment conflicting with fragBase on the body part while also
carrying windowing values and an annotation, all of which sit after the
body part in the merge order. -/
def fragConflict : ParsedR :=
  { emptyParsed with
    sopClass := some (.prim (.str "C")),
    sopInstance := some (.prim (.str "I")),
    series := some (.prim (.str "S")),
    study := some (.prim (.str "T")),
    bodyPart := some (.prim (.str "LEG")),
    center := some (.prim (.num 50)),
    windowWidth := some (.prim (.num 100)),
    annSeq := some [[9, 9, 10, 10, 11, 11, 12, 12, 9, 9]] }

/-- fragBase with a different pixel payload location and identical
values everywhere else. -/
def fragBaseDup : ParsedR :=
  { fragBase with pixelData := some (.prim (.str "b.dcm")) }

/-- The accumulator after folding fragBase into the empty merged record:
fragBase's tags plus the seeded empty annotation list. -/
def mergedBase : ParsedR :=
  { fragBase with annSeq := some [] }

/-- An annotation object that is malformed (its count is 4, not 5) but
still carries a 10-value data element. -/
def objMalformed : DS0 :=
  [(ANN_DATA, .lst [1, 2, 3, 4, 5, 6, 7, 8, 9, 10]),
   (ANN_COUNT, .num 4),
   (ANN_DIMENSIONS, .num 2),
   (ANN_TYPE, .str "POLYLINE"),
   (ANN_UNITS, .str "PIXEL")]

/-- A dataset whose annotation sequence holds exactly one malformed
annotation object. -/
def dsMalformedAnn : DS2 :=
  [(ANN_SEQ, .sq [[(ANN_OBJECT, .sq [objMalformed])]])]

/-- A well-formed annotation object. -/
def objWellFormed : DS0 :=
  [(ANN_DATA, .lst [1, 1, 2, 2, 3, 3, 4, 4, 1, 1]),
   (ANN_COUNT, .num 5),
   (ANN_DIMENSIONS, .num 2),
   (ANN_TYPE, .str "POLYLINE"),
   (ANN_UNITS, .str "PIXEL")]

/-- A merged record holding every required projection tag and a
duplicated annotation. -/
def entryIn : ParsedR :=
  { fragBase with
    annSeq := some [[1, 1, 2, 2, 3, 3, 4, 4, 1, 1],
                    [1, 1, 2, 2, 3, 3, 4, 4, 1, 1]] }

/-- The parsed record parse_dicom produces for dsWithRef: the reference
identifiers have overwritten the common ones. -/
def parsedWithRef : ParsedR :=
  { emptyParsed with
    sopClass := some (.prim (.str "RC")),
    sopInstance := some (.prim (.str "RI")),
    series := some (.prim (.str "RS")),
    study := some (.prim (.str "T")),
    ref := some ⟨.str "RC", .str "RI", .prim (.str "RS")⟩ }

/-- The parsed record parse_dicom produces for dsWithPixels read from
the given path. -/
def parsedPix (fp : String) : ParsedR :=
  { emptyParsed with
    sopClass := some (.prim (.str "C")),
    sopInstance := some (.prim (.str "I")),
    series := some (.prim (.str "S")),
    study := some (.prim (.str "T")),
    columns := some (.prim (.num 64)),
    rows := some (.prim (.num 32)),
    pixelData := some (.prim (.str fp)) }

/-- A raw dataset with the four common tags only. -/
def dsCommonOnly : DS2 :=
  [(COM_SOP_CLASS, .prim (.str "C")),
   (COM_SOP_INSTANCE, .prim (.str "I")),
   (COM_SERIES, .prim (.str "S")),
   (COM_STUDY, .prim (.str "T"))]

/-- A raw dataset with the common tags, pixel geometry and a full pixel
group. -/
def dsWithPixels : DS2 :=
  [(COM_SOP_CLASS, .prim (.str "C")),
   (COM_SOP_INSTANCE, .prim (.str "I")),
   (COM_SERIES, .prim (.str "S")),
   (COM_STUDY, .prim (.str "T")),
   (PIX_BITS_ALLOCATED, .prim (.num 16)),
   (PIX_BITS_STORED, .prim (.num 12)),
   (PIX_COLUMNS, .prim (.num 64)),
   (PIX_DATA, .prim (.lst [7, 7, 7])),
   (PIX_PHOTOMETRIC, .prim (.str "MONOCHROME2")),
   (PIX_REPRESENTATION, .prim (.num 0)),
   (PIX_ROWS, .prim (.num 32)),
   (PIX_SAMPLES, .prim (.num 1))]

/-- A raw dataset with the common tags and a well-formed reference
sequence naming another instance's identifiers. -/
def dsWithRef : DS2 :=
  [(COM_SOP_CLASS, .prim (.str "C")),
   (COM_SOP_INSTANCE, .prim (.str "I")),
   (COM_SERIES, .prim (.str "S")),
   (COM_STUDY, .prim (.str "T")),
   (REF_SEQ, .sq [[(REF_OBJECT, .sq [[(REF_SOP_CLASS, .str "RC"),
                                      (REF_SOP_INSTANCE, .str "RI")]]),
                   (REF_SERIES, .prim (.str "RS"))]])]

/-! ## Geometry lemmas -/

theorem interleave_slice :
    ∀ l : List ℚ, interleave (sliceEven l) (sliceOdd l) = l
  | [] => rfl
  | [x] => rfl
  | x :: y :: rest => by
    simp only [sliceEven, sliceOdd, interleave]
    exact congrArg (fun t => x :: y :: t) (interleave_slice rest)

/-- C9: applying the coordinate transform with origin (0, 0) and ratios
(1, 1) returns the input coordinate list exactly, and the
collection-level transform returns the input collection unchanged for
the exact identity transform. -/
theorem transform_identity_law :
    (∀ coords : List ℚ, transform_coords coords (0, 0) (1, 1) = coords) ∧
    (∀ coord_list : List (List ℚ),
      transform_coordinate_collection coord_list (0, 0) (1, 1) = coord_list) := by
  constructor
  · intro coords
    simpa [transform_coords] using interleave_slice coords
  · intro coord_list
    simp [transform_coordinate_collection]

/-- C7: exporting a 1000 by 800 image to a 500 by 500 target with
keep_aspect_ratio and no_upscale set yields resize dimensions (500, 400),
a transform with origin (0, 50) and ratios (1/2, 1/2), and maps the
point (200, 200) to (100, 150). -/
theorem scenario_c_geometry :
    compute_resize_dimensions 1000 800 500 500 true true = (500, 400) ∧
    compute_resize_transform 1000 800 500 500 500 400 = ((0, 50), (1/2, 1/2)) ∧
    transform_coords [200, 200] ((0 : ℚ), 50) (1/2, 1/2) = [100, 150] := by
  refine ⟨?_, ?_, ?_⟩
  · norm_num [compute_resize_dimensions, compute_resize_ratio, maxScale,
      pyInt, min_def]
  · norm_num [compute_resize_transform, pyInt]
  · norm_num [transform_coords, sliceEven, sliceOdd, interleave]

/-- C8 counterexample: at original dimensions 2 by 2, target 5 by 5 and
resize dimensions 2 by 2 (all positive), the returned origin is (1, 1),
not the exact centering offset (3/2, 3/2) the claim states. -/
theorem resize_transform_origin_cx :
    (((compute_resize_transform 2 2 5 5 2 2).1.1 : ℚ),
      ((compute_resize_transform 2 2 5 5 2 2).1.2 : ℚ)) ≠
      specResizeOrigin 5 5 2 2 := by
  norm_num [compute_resize_transform, specResizeOrigin, pyInt, Prod.ext_iff]

/-- C8 amended: for positive original dimensions and nonzero targets,
compute_resize_transform returns the centering offsets truncated to ints
by Python int() and the exact ratios (resize_w/w, resize_h/h); in the
identity case it yields origin (0, 0) and ratios (1, 1) exactly. -/
theorem resize_transform_amended (w h tw th rw rh : ℚ)
    (hw : 0 < w) (hh : 0 < h) (htw : tw ≠ 0) (hth : th ≠ 0) :
    compute_resize_transform w h tw th rw rh =
      ((pyInt ((tw - rw) / 2), pyInt ((th - rh) / 2)), (rw / w, rh / h)) ∧
    compute_resize_transform w h w h w h = ((0, 0), (1, 1)) := by
  constructor
  · simp [compute_resize_transform, htw, hth]
  · simp [compute_resize_transform, hw.ne', hh.ne', pyInt,
      div_self hw.ne', div_self hh.ne']

/-- C8 witness: the amended theorem evaluated at the counterexample
input and at the identity input. -/
theorem resize_transform_amended_witness :
    compute_resize_transform 2 2 5 5 2 2 = ((1, 1), (1, 1)) ∧
    compute_resize_transform 2 2 2 2 2 2 = ((0, 0), (1, 1)) := by
  have h := resize_transform_amended 2 2 5 5 2 2 (by norm_num) (by norm_num)
    (by norm_num) (by norm_num)
  refine ⟨?_, h.2⟩
  rw [h.1]
  norm_num [pyInt]

/-! ## Basic lemmas about parsed records and merge_tag -/

theorem getTag_setTag (d : ParsedR) (t u : DTag) (v : V2) :
    getTag (setTag d t v) u = if u = t then some v else getTag d u := by
  cases t <;> cases u <;> simp [getTag, setTag]

theorem setTag_annSeq (d : ParsedR) (t : DTag) (v : V2) :
    (setTag d t v).annSeq = d.annSeq := by
  cases t <;> rfl

theorem setTag_ref (d : ParsedR) (t : DTag) (v : V2) :
    (setTag d t v).ref = d.ref := by
  cases t <;> rfl

theorem setTag_self {d : ParsedR} {t : DTag} {v : V2}
    (h : getTag d t = some v) : setTag d t v = d := by
  cases t <;> (cases d; simp_all [getTag, setTag])

theorem dtag_scalar_or_pixel (u : DTag) : u ∈ scalarTags ∨ u = .pixelData := by
  cases u <;> simp [scalarTags]

theorem pixel_not_scalar : DTag.pixelData ∉ scalarTags := by
  simp [scalarTags]

theorem getTag_emptyMerged (u : DTag) : getTag emptyMerged u = none := by
  cases u <;> rfl

theorem getTag_pixelData (d : ParsedR) : getTag d .pixelData = d.pixelData := rfl

theorem not_compat_iff {src dest : ParsedR} {t : DTag} :
    ¬ compat src dest t ↔
      ∃ v w, getTag src t = some v ∧ getTag dest t = some w ∧ v ≠ w := by
  unfold compat
  push_neg
  rfl

theorem merge_tag_ok_cases {src dest d : ParsedR} {t : DTag}
    (h : merge_tag src dest t = .ok d) :
    (getTag src t = none ∧ d = dest) ∨
    (∃ v, getTag src t = some v ∧ d = setTag dest t v ∧
      (getTag dest t = none ∨ getTag dest t = some v)) := by
  unfold merge_tag at h
  cases hs : getTag src t with
  | none =>
    rw [hs] at h
    simp only [Except.ok.injEq] at h
    exact Or.inl ⟨rfl, h.symm⟩
  | some v =>
    rw [hs] at h
    cases hd : getTag dest t with
    | none =>
      rw [hd] at h
      simp only [Except.ok.injEq] at h
      exact Or.inr ⟨v, rfl, h.symm, Or.inl rfl⟩
    | some w =>
      rw [hd] at h
      by_cases hw : w = v
      · subst hw
        simp only [ne_eq, not_true_eq_false, if_neg, ite_false,
          Except.ok.injEq] at h
        exact Or.inr ⟨w, rfl, h.symm, Or.inr rfl⟩
      · simp [hw] at h

theorem merge_tag_error_cases {src dest : ParsedR} {t : DTag} {e : MergeErr}
    (h : merge_tag src dest t = .error e) :
    e = .tagConflict t ∧ ¬ compat src dest t := by
  unfold merge_tag at h
  cases hs : getTag src t with
  | none => rw [hs] at h; cases h
  | some v =>
    rw [hs] at h
    cases hd : getTag dest t with
    | none => rw [hd] at h; cases h
    | some w =>
      rw [hd] at h
      by_cases hw : w = v
      · simp [hw] at h
      · refine ⟨?_, ?_⟩
        · simp only [ne_eq, hw, not_false_eq_true, if_pos,
            Except.error.injEq] at h
          exact h.symm
        · rw [not_compat_iff]
          exact ⟨v, w, hs, hd, fun hvw => hw hvw.symm⟩

theorem merge_tag_error_of_not_compat {src dest : ParsedR} {t : DTag}
    (h : ¬ compat src dest t) :
    merge_tag src dest t = .error (.tagConflict t) := by
  rw [not_compat_iff] at h
  obtain ⟨v, w, hs, hd, hvw⟩ := h
  unfold merge_tag
  rw [hs, hd]
  have hwv : ¬ w = v := fun h2 => hvw h2.symm
  simp [hwv]

theorem merge_tag_ok_of_compat {src dest : ParsedR} {t : DTag}
    (hc : compat src dest t) :
    ∃ d, merge_tag src dest t = .ok d := by
  unfold merge_tag
  cases hs : getTag src t with
  | none => exact ⟨dest, rfl⟩
  | some v =>
    cases hd : getTag dest t with
    | none => exact ⟨setTag dest t v, rfl⟩
    | some w =>
      have hw : w = v := (hc v w hs hd).symm
      exact ⟨setTag dest t v, by simp [hw]⟩

theorem merge_tag_ok_other {src dest d : ParsedR} {t : DTag}
    (h : merge_tag src dest t = .ok d) :
    (∀ u, u ≠ t → getTag d u = getTag dest u) ∧
    d.annSeq = dest.annSeq ∧ d.ref = dest.ref := by
  rcases merge_tag_ok_cases h with ⟨_, rfl⟩ | ⟨v, _, rfl, _⟩
  · exact ⟨fun _ _ => rfl, rfl, rfl⟩
  · exact ⟨fun u hu => by rw [getTag_setTag]; simp [hu],
      setTag_annSeq dest t v, setTag_ref dest t v⟩

theorem merge_tag_ok_keep {src dest d : ParsedR} {t : DTag} {v : V2}
    (h : merge_tag src dest t = .ok d) (hd : getTag dest t = some v) :
    getTag d t = some v := by
  rcases merge_tag_ok_cases h with ⟨_, rfl⟩ | ⟨w, _, rfl, hcase⟩
  · exact hd
  · rcases hcase with h0 | h0
    · rw [hd] at h0; cases h0
    · rw [hd] at h0
      injection h0 with hv
      rw [getTag_setTag, hv]
      simp

theorem merge_tag_ok_src {src dest d : ParsedR} {t : DTag} {v : V2}
    (h : merge_tag src dest t = .ok d) (hs : getTag src t = some v) :
    getTag d t = some v := by
  rcases merge_tag_ok_cases h with ⟨h0, rfl⟩ | ⟨w, hw, rfl, _⟩
  · rw [h0] at hs; cases hs
  · rw [hw] at hs
    injection hs with hv
    rw [getTag_setTag, hv]
    simp

theorem merge_tag_ok_none_none {src dest d : ParsedR} {t : DTag}
    (h : merge_tag src dest t = .ok d) (hs : getTag src t = none)
    (hd : getTag dest t = none) : getTag d t = none := by
  rcases merge_tag_ok_cases h with ⟨_, rfl⟩ | ⟨w, hw, rfl, _⟩
  · exact hd
  · rw [hw] at hs; cases hs

theorem merge_tag_compat_after {src dest d : ParsedR} {t : DTag}
    (h : merge_tag src dest t = .ok d) : compat src d t := by
  intro v w hv hw
  cases hs : getTag src t with
  | none => rw [hs] at hv; cases hv
  | some x =>
    rw [hs] at hv
    injection hv with hv
    have := merge_tag_ok_src h hs
    rw [this] at hw
    injection hw with hw
    rw [← hv, ← hw]

theorem merge_tag_compat_pres {src dest d : ParsedR} {t u : DTag}
    (h : merge_tag src dest t = .ok d) (hc : compat src dest u) :
    compat src d u := by
  by_cases hu : u = t
  · subst hu; exact merge_tag_compat_after h
  · intro v w hv hw
    rw [(merge_tag_ok_other h).1 u hu] at hw
    exact hc v w hv hw

/-! ## Lemmas about the scalar-tag folding loop -/

theorem mergeTags_fst_outside (src : ParsedR) :
    ∀ (ts : List DTag) (dest : ParsedR) (u : DTag), u ∉ ts →
      getTag (mergeTags src dest ts).1 u = getTag dest u
  | [], _, _, _ => rfl
  | t :: ts, dest, u, hu => by
    have hut : u ≠ t := fun h => hu (h ▸ List.mem_cons_self t ts)
    have hus : u ∉ ts := fun h => hu (List.mem_cons_of_mem t h)
    cases hm : merge_tag src dest t with
    | error e => simp [mergeTags, hm]
    | ok d =>
      simp only [mergeTags, hm]
      rw [mergeTags_fst_outside src ts d u hus, (merge_tag_ok_other hm).1 u hut]

theorem mergeTags_fst_annSeq (src : ParsedR) :
    ∀ (ts : List DTag) (dest : ParsedR),
      (mergeTags src dest ts).1.annSeq = dest.annSeq
  | [], _ => rfl
  | t :: ts, dest => by
    cases hm : merge_tag src dest t with
    | error e => simp [mergeTags, hm]
    | ok d =>
      simp only [mergeTags, hm]
      rw [mergeTags_fst_annSeq src ts d, (merge_tag_ok_other hm).2.1]

theorem mergeTags_fst_ref (src : ParsedR) :
    ∀ (ts : List DTag) (dest : ParsedR),
      (mergeTags src dest ts).1.ref = dest.ref
  | [], _ => rfl
  | t :: ts, dest => by
    cases hm : merge_tag src dest t with
    | error e => simp [mergeTags, hm]
    | ok d =>
      simp only [mergeTags, hm]
      rw [mergeTags_fst_ref src ts d, (merge_tag_ok_other hm).2.2]

theorem mergeTags_ok_mem {src : ParsedR} :
    ∀ (ts : List DTag) (dest d : ParsedR), mergeTags src dest ts = (d, none) →
      ∀ u v, (getTag dest u = some v ∨ (u ∈ ts ∧ getTag src u = some v)) →
        getTag d u = some v
  | [], dest, d, h, u, v, hv => by
    injection h with h1 _
    subst h1
    rcases hv with hv | ⟨hmem, _⟩
    · exact hv
    · cases hmem
  | t :: ts, dest, d, h, u, v, hv => by
    rcases hm : merge_tag src dest t with e | d0
    · rw [mergeTags, hm] at h
      cases h
    · rw [mergeTags, hm] at h
      refine mergeTags_ok_mem ts d0 d h u v ?_
      rcases hv with hv | ⟨hmem, hsrc⟩
      · by_cases hut : u = t
        · subst hut
          exact Or.inl (merge_tag_ok_keep hm hv)
        · exact Or.inl (((merge_tag_ok_other hm).1 u hut).trans hv)
      · rcases List.mem_cons.1 hmem with hut | hmem'
        · subst hut
          exact Or.inl (merge_tag_ok_src hm hsrc)
        · exact Or.inr ⟨hmem', hsrc⟩

theorem mergeTags_ok_none {src : ParsedR} :
    ∀ (ts : List DTag) (dest d : ParsedR), mergeTags src dest ts = (d, none) →
      ∀ u, getTag dest u = none → (u ∈ ts → getTag src u = none) →
        getTag d u = none
  | [], dest, d, h, u, hd, _ => by
    injection h with h1 _
    subst h1
    exact hd
  | t :: ts, dest, d, h, u, hd, hs => by
    rcases hm : merge_tag src dest t with e | d0
    · rw [mergeTags, hm] at h
      cases h
    · rw [mergeTags, hm] at h
      refine mergeTags_ok_none ts d0 d h u ?_ ?_
      · by_cases hut : u = t
        · subst hut
          exact merge_tag_ok_none_none hm
            (hs (List.mem_cons_self u ts)) hd
        · exact ((merge_tag_ok_other hm).1 u hut).trans hd
      · exact fun hmem => hs (List.mem_cons_of_mem t hmem)

theorem mergeTags_ok_of_compat {src : ParsedR} :
    ∀ (ts : List DTag) (dest : ParsedR), (∀ t ∈ ts, compat src dest t) →
      ∃ d, mergeTags src dest ts = (d, none)
  | [], dest, _ => ⟨dest, rfl⟩
  | t :: ts, dest, hc => by
    obtain ⟨d0, hm⟩ :=
      merge_tag_ok_of_compat (hc t (List.mem_cons_self t ts))
    obtain ⟨d, hd⟩ := mergeTags_ok_of_compat ts d0
      (fun u hu => merge_tag_compat_pres hm (hc u (List.mem_cons_of_mem t hu)))
    exact ⟨d, by rw [mergeTags, hm]; exact hd⟩

theorem mergeTags_conflict {src : ParsedR} :
    ∀ (ts : List DTag) (dest : ParsedR), (∃ t ∈ ts, ¬ compat src dest t) →
      ∃ t' d, t' ∈ ts ∧ ¬ compat src dest t' ∧
        mergeTags src dest ts = (d, some (.tagConflict t'))
  | [], _, h => absurd h (by simp)
  | t :: ts, dest, h => by
    by_cases hct : compat src dest t
    · obtain ⟨d0, hm⟩ := merge_tag_ok_of_compat hct
      obtain ⟨t0, ht0, hnc0⟩ := h
      have ht0' : t0 ∈ ts := by
        rcases List.mem_cons.1 ht0 with h1 | h1
        · exact absurd hct (h1 ▸ hnc0)
        · exact h1
      have hnc0' : ¬ compat src d0 t0 := by
        intro hcd
        by_cases h1 : t0 = t
        · exact hnc0 (h1 ▸ hct)
        · refine hnc0 (fun v w hv hw => hcd v w hv ?_)
          rw [(merge_tag_ok_other hm).1 t0 h1]
          exact hw
      obtain ⟨t', d, ht', hnc', heq⟩ :=
        mergeTags_conflict ts d0 ⟨t0, ht0', hnc0'⟩
      have ht'' : t' ≠ t := by
        intro h1
        exact hnc' (h1 ▸ merge_tag_compat_after hm)
      refine ⟨t', d, List.mem_cons_of_mem t ht', ?_, ?_⟩
      · intro hcd
        refine hnc' (fun v w hv hw => hcd v w hv ?_)
        rw [← (merge_tag_ok_other hm).1 t' ht'']
        exact hw
      · rw [mergeTags, hm]; exact heq
    · refine ⟨t, dest, List.mem_cons_self t ts, hct, ?_⟩
      rw [mergeTags, merge_tag_error_of_not_compat hct]

/-! ## Lemmas about merge_sequence and merge_dataset -/

theorem merge_sequence_getTag (src d : ParsedR) (u : DTag) :
    getTag (merge_sequence src d) u = getTag d u := by
  cases h : src.annSeq with
  | none => simp [merge_sequence, h]
  | some l =>
    simp only [merge_sequence, h]
    cases u <;> rfl

theorem merge_sequence_ref (src d : ParsedR) :
    (merge_sequence src d).ref = d.ref := by
  cases h : src.annSeq with
  | none => simp [merge_sequence, h]
  | some l => simp only [merge_sequence, h]

theorem merge_sequence_ann {src d : ParsedR} {A : List (List ℚ)}
    (h : d.annSeq = some A) :
    (merge_sequence src d).annSeq = some (A ++ annOf src) := by
  cases hs : src.annSeq with
  | none =>
    simp only [merge_sequence, hs, annOf, Option.getD, h]
    rw [List.append_nil]
  | some l =>
    simp only [merge_sequence, hs, annOf, h]
    rfl

theorem merge_dataset_ok_mem {f acc m : ParsedR}
    (h : merge_dataset f acc = (m, none)) :
    ∀ u v, (getTag acc u = some v ∨ getTag f u = some v) →
      getTag m u = some v := by
  unfold merge_dataset at h
  rcases hmt : mergeTags f acc scalarTags with ⟨d1, oe⟩
  rw [hmt] at h
  cases oe with
  | some e => cases h
  | none =>
    simp only at h
    rcases hp : merge_tag f (merge_sequence f d1) .pixelData with e | m'
    · rw [hp] at h; cases h
    · rw [hp] at h
      injection h with h1 _
      subst h1
      intro u v hv
      rcases dtag_scalar_or_pixel u with hu | hu
      · have hd1 : getTag d1 u = some v := by
          rcases hv with hv | hv
          · exact mergeTags_ok_mem scalarTags acc d1 hmt u v (Or.inl hv)
          · exact mergeTags_ok_mem scalarTags acc d1 hmt u v
              (Or.inr ⟨hu, hv⟩)
        have hne : u ≠ .pixelData := fun h2 => pixel_not_scalar (h2 ▸ hu)
        rw [(merge_tag_ok_other hp).1 u hne, merge_sequence_getTag]
        exact hd1
      · subst hu
        have hd1 : getTag d1 .pixelData = getTag acc .pixelData := by
          have h2 := mergeTags_fst_outside f scalarTags acc
            .pixelData pixel_not_scalar
          rw [hmt] at h2
          exact h2
        rcases hv with hv | hv
        · refine merge_tag_ok_keep hp ?_
          rw [merge_sequence_getTag, hd1]
          exact hv
        · exact merge_tag_ok_src hp hv

theorem merge_dataset_ok_none {f acc m : ParsedR}
    (h : merge_dataset f acc = (m, none)) :
    ∀ u, getTag acc u = none → getTag f u = none → getTag m u = none := by
  unfold merge_dataset at h
  rcases hmt : mergeTags f acc scalarTags with ⟨d1, oe⟩
  rw [hmt] at h
  cases oe with
  | some e => cases h
  | none =>
    simp only at h
    rcases hp : merge_tag f (merge_sequence f d1) .pixelData with e | m'
    · rw [hp] at h; cases h
    · rw [hp] at h
      injection h with h1 _
      subst h1
      intro u hacc hf
      have hd1 : getTag d1 u = none :=
        mergeTags_ok_none scalarTags acc d1 hmt u hacc (fun _ => hf)
      by_cases hu : u = .pixelData
      · subst hu
        refine merge_tag_ok_none_none hp hf ?_
        rw [merge_sequence_getTag]
        exact hd1
      · rw [(merge_tag_ok_other hp).1 u hu, merge_sequence_getTag]
        exact hd1

theorem merge_dataset_ok_ann {f acc m : ParsedR}
    (h : merge_dataset f acc = (m, none)) :
    ∀ A, acc.annSeq = some A → m.annSeq = some (A ++ annOf f) := by
  unfold merge_dataset at h
  rcases hmt : mergeTags f acc scalarTags with ⟨d1, oe⟩
  rw [hmt] at h
  cases oe with
  | some e => cases h
  | none =>
    simp only at h
    rcases hp : merge_tag f (merge_sequence f d1) .pixelData with e | m'
    · rw [hp] at h; cases h
    · rw [hp] at h
      injection h with h1 _
      subst h1
      intro A hA
      have hd1 : d1.annSeq = some A := by
        have := mergeTags_fst_annSeq f scalarTags acc
        rw [hmt] at this
        exact this.trans hA
      rw [(merge_tag_ok_other hp).2.1]
      exact merge_sequence_ann hd1

theorem merge_dataset_ok_ref {f acc m : ParsedR}
    (h : merge_dataset f acc = (m, none)) : m.ref = acc.ref := by
  unfold merge_dataset at h
  rcases hmt : mergeTags f acc scalarTags with ⟨d1, oe⟩
  rw [hmt] at h
  cases oe with
  | some e => cases h
  | none =>
    simp only at h
    rcases hp : merge_tag f (merge_sequence f d1) .pixelData with e | m'
    · rw [hp] at h; cases h
    · rw [hp] at h
      injection h with h1 _
      subst h1
      rw [(merge_tag_ok_other hp).2.2, merge_sequence_ref]
      have := mergeTags_fst_ref f scalarTags acc
      rw [hmt] at this
      exact this

theorem merge_dataset_ok_of_compat {f acc : ParsedR}
    (hc : ∀ u : DTag, compat f acc u) :
    (merge_dataset f acc).2 = none := by
  obtain ⟨d1, hmt⟩ :=
    mergeTags_ok_of_compat scalarTags acc (fun t _ => hc t)
  have hd1pix : getTag d1 .pixelData = getTag acc .pixelData := by
    have h2 := mergeTags_fst_outside f scalarTags acc .pixelData
      pixel_not_scalar
    rw [hmt] at h2
    exact h2
  have hpix : compat f (merge_sequence f d1) .pixelData := by
    intro v w hv hw
    rw [merge_sequence_getTag, hd1pix] at hw
    exact hc .pixelData v w hv hw
  obtain ⟨m', hp⟩ := merge_tag_ok_of_compat hpix
  have hstep : merge_dataset f acc =
      match merge_tag f (merge_sequence f d1) .pixelData with
      | .error _ => (merge_sequence f d1, some .duplicateDICOM)
      | .ok d2 => (d2, none) := by
    unfold merge_dataset
    rw [hmt]
  rw [hstep, hp]

theorem merge_dataset_scalar_conflict {src dest : ParsedR} {t : DTag}
    (ht : t ∈ scalarTags) (hnc : ¬ compat src dest t) :
    ∃ t' d, t' ∈ scalarTags ∧ ¬ compat src dest t' ∧
      merge_dataset src dest = (d, some (.tagConflict t')) := by
  obtain ⟨t', d, ht', hnc', heq⟩ :=
    mergeTags_conflict scalarTags dest ⟨t, ht, hnc⟩
  refine ⟨t', d, ht', hnc', ?_⟩
  unfold merge_dataset
  rw [heq]

theorem merge_dataset_pixel_conflict {src dest : ParsedR}
    (hc : ∀ t ∈ scalarTags, compat src dest t)
    (hnc : ¬ compat src dest .pixelData) :
    (merge_dataset src dest).2 = some .duplicateDICOM := by
  obtain ⟨d1, hmt⟩ := mergeTags_ok_of_compat scalarTags dest hc
  have hd1pix : getTag d1 .pixelData = getTag dest .pixelData := by
    have h2 := mergeTags_fst_outside src scalarTags dest .pixelData
      pixel_not_scalar
    rw [hmt] at h2
    exact h2
  have hpix : ¬ compat src (merge_sequence src d1) .pixelData := by
    intro hcd
    refine hnc (fun v w hv hw => hcd v w hv ?_)
    rw [merge_sequence_getTag, hd1pix]
    exact hw
  have hstep : merge_dataset src dest =
      match merge_tag src (merge_sequence src d1) .pixelData with
      | .error _ => (merge_sequence src d1, some .duplicateDICOM)
      | .ok d2 => (d2, none) := by
    unfold merge_dataset
    rw [hmt]
  rw [hstep, merge_tag_error_of_not_compat hpix]

theorem merge_dataset_conflict_partial {f acc d : ParsedR} {t : DTag}
    (h : merge_dataset f acc = (d, some (.tagConflict t))) :
    d.annSeq = acc.annSeq ∧ d.pixelData = acc.pixelData ∧ d.ref = acc.ref := by
  unfold merge_dataset at h
  rcases hmt : mergeTags f acc scalarTags with ⟨d1, oe⟩
  rw [hmt] at h
  cases oe with
  | some e =>
    simp only at h
    injection h with h1 h2
    subst h1
    injection h2 with h2
    have hann := mergeTags_fst_annSeq f scalarTags acc
    have href := mergeTags_fst_ref f scalarTags acc
    have hpix := mergeTags_fst_outside f scalarTags acc .pixelData
      pixel_not_scalar
    rw [hmt] at hann href hpix
    exact ⟨hann, hpix, href⟩
  | none =>
    simp only at h
    rcases hp : merge_tag f (merge_sequence f d1) .pixelData with e | m'
    · rw [hp] at h
      injection h with _ h2
      injection h2 with h2
      cases h2
    · rw [hp] at h
      injection h with _ h2
      cases h2

/-! ## Lemmas about the merge_dicom folding loop -/

theorem mergeLoop_cons_ok {f acc m : ParsedR} {rest : List ParsedR}
    {sb ig : Bool} (hm : merge_dataset f acc = (m, none)) :
    mergeLoop sb ig acc (f :: rest) = mergeLoop sb ig m rest := by
  rw [mergeLoop, hm]

theorem mergeLoop_strict_ok_step {f acc : ParsedR} {rest : List ParsedR}
    {d : ParsedR} (h : mergeLoop false false acc (f :: rest) = .ok d) :
    ∃ m, merge_dataset f acc = (m, none) ∧
      mergeLoop false false m rest = .ok d := by
  rcases hm : merge_dataset f acc with ⟨m, oe⟩
  cases oe with
  | none =>
    refine ⟨m, rfl, ?_⟩
    rw [mergeLoop_cons_ok hm] at h
    exact h
  | some e =>
    rw [mergeLoop, hm] at h
    cases e <;> simp at h

theorem mergeLoop_ok_mem :
    ∀ (l : List ParsedR) (acc d : ParsedR),
      mergeLoop false false acc l = .ok d →
      ∀ u v, (getTag acc u = some v ∨ ∃ f ∈ l, getTag f u = some v) →
        getTag d u = some v
  | [], acc, d, h, u, v, hv => by
    injection h with h1
    subst h1
    rcases hv with hv | ⟨f, hf, _⟩
    · exact hv
    · cases hf
  | f :: rest, acc, d, h, u, v, hv => by
    obtain ⟨m, hm, hrest⟩ := mergeLoop_strict_ok_step h
    refine mergeLoop_ok_mem rest m d hrest u v ?_
    rcases hv with hv | ⟨g, hg, hgv⟩
    · exact Or.inl (merge_dataset_ok_mem hm u v (Or.inl hv))
    · rcases List.mem_cons.1 hg with hgf | hg'
      · subst hgf
        exact Or.inl (merge_dataset_ok_mem hm u v (Or.inr hgv))
      · exact Or.inr ⟨g, hg', hgv⟩

theorem mergeLoop_ok_none :
    ∀ (l : List ParsedR) (acc d : ParsedR),
      mergeLoop false false acc l = .ok d →
      ∀ u, getTag acc u = none → (∀ f ∈ l, getTag f u = none) →
        getTag d u = none
  | [], acc, d, h, u, hacc, _ => by
    injection h with h1
    subst h1
    exact hacc
  | f :: rest, acc, d, h, u, hacc, hall => by
    obtain ⟨m, hm, hrest⟩ := mergeLoop_strict_ok_step h
    refine mergeLoop_ok_none rest m d hrest u ?_ ?_
    · exact merge_dataset_ok_none hm u hacc
        (hall f (List.mem_cons_self f rest))
    · exact fun g hg => hall g (List.mem_cons_of_mem f hg)

theorem mergeLoop_ok_ann :
    ∀ (l : List ParsedR) (acc d : ParsedR),
      mergeLoop false false acc l = .ok d →
      ∀ A, acc.annSeq = some A → d.annSeq = some (A ++ l.flatMap annOf)
  | [], acc, d, h, A, hA => by
    injection h with h1
    subst h1
    rw [List.flatMap_nil, List.append_nil]
    exact hA
  | f :: rest, acc, d, h, A, hA => by
    obtain ⟨m, hm, hrest⟩ := mergeLoop_strict_ok_step h
    have hmann : m.annSeq = some (A ++ annOf f) :=
      merge_dataset_ok_ann hm A hA
    have := mergeLoop_ok_ann rest m d hrest (A ++ annOf f) hmann
    rw [this, List.flatMap_cons, List.append_assoc]

theorem mergeLoop_ok_ref :
    ∀ (l : List ParsedR) (acc d : ParsedR),
      mergeLoop false false acc l = .ok d → d.ref = acc.ref
  | [], acc, d, h => by
    injection h with h1
    subst h1
    rfl
  | f :: rest, acc, d, h => by
    obtain ⟨m, hm, hrest⟩ := mergeLoop_strict_ok_step h
    exact (mergeLoop_ok_ref rest m d hrest).trans (merge_dataset_ok_ref hm)

/-! ## C1: commutativity of the success-path merge -/

/-- C1 counterexample: two well-formed fragments sharing one identity
key, each carrying one annotation; both fold orders succeed with no
conflict, yet the merged records differ, because the accumulated
annotation lists are concatenated in fold order. -/
theorem merge_commutative_cx :
    mergeLoop false false emptyMerged [fragAnnOne, fragAnnTwo] =
      .ok mergedOneTwo ∧
    mergeLoop false false emptyMerged [fragAnnTwo, fragAnnOne] =
      .ok mergedTwoOne ∧
    mergedOneTwo ≠ mergedTwoOne := by
  refine ⟨rfl, rfl, ?_⟩
  intro h
  have h2 : mergedOneTwo.annSeq = mergedTwoOne.annSeq := by rw [h]
  simp [mergedOneTwo, mergedTwoOne] at h2

/-- C1 amended: for well-formed fragments sharing one identity key, if
two fold orders (permutations of each other) both succeed with no
conflict, the resulting merged records agree at every scalar and pixel
tag and on the reference field, and their accumulated annotation lists
are permutations of each other (annotations are concatenated in fold
order, so the lists need not be equal as lists). -/
theorem merge_commutative_amended (l₁ l₂ : List ParsedR) (hp : l₁.Perm l₂)
    (d₁ d₂ : ParsedR)
    (h₁ : mergeLoop false false emptyMerged l₁ = .ok d₁)
    (h₂ : mergeLoop false false emptyMerged l₂ = .ok d₂) :
    (∀ u : DTag, getTag d₁ u = getTag d₂ u) ∧ d₁.ref = d₂.ref ∧
    ∃ a₁ a₂, d₁.annSeq = some a₁ ∧ d₂.annSeq = some a₂ ∧ a₁.Perm a₂ := by
  refine ⟨?_, ?_, ?_⟩
  · intro u
    by_cases hex : ∃ f ∈ l₁, ∃ v, getTag f u = some v
    · obtain ⟨f, hf, v, hv⟩ := hex
      rw [mergeLoop_ok_mem l₁ _ _ h₁ u v (Or.inr ⟨f, hf, hv⟩),
        mergeLoop_ok_mem l₂ _ _ h₂ u v (Or.inr ⟨f, hp.subset hf, hv⟩)]
    · push_neg at hex
      have hnone : ∀ f ∈ l₁, getTag f u = none := by
        intro f hf
        cases hfu : getTag f u with
        | none => rfl
        | some v => exact absurd hfu (hex f hf v)
      rw [mergeLoop_ok_none l₁ _ _ h₁ u (getTag_emptyMerged u) hnone,
        mergeLoop_ok_none l₂ _ _ h₂ u (getTag_emptyMerged u)
          (fun f hf => hnone f (hp.symm.subset hf))]
  · rw [mergeLoop_ok_ref l₁ _ _ h₁, mergeLoop_ok_ref l₂ _ _ h₂]
  · refine ⟨l₁.flatMap annOf, l₂.flatMap annOf, ?_, ?_,
      hp.flatMap_right annOf⟩
    · simpa using mergeLoop_ok_ann l₁ _ _ h₁ [] rfl
    · simpa using mergeLoop_ok_ann l₂ _ _ h₂ [] rfl

/-- C1 witness: the amended theorem applied to the two concrete fold
orders of the counterexample fragments. -/
theorem merge_commutative_amended_witness :
    getTag mergedOneTwo .sopInstance = getTag mergedTwoOne .sopInstance ∧
    mergedOneTwo.ref = mergedTwoOne.ref := by
  have h := merge_commutative_amended [fragAnnOne, fragAnnTwo]
    [fragAnnTwo, fragAnnOne] (List.Perm.swap fragAnnTwo fragAnnOne [])
    mergedOneTwo mergedTwoOne rfl rfl
  exact ⟨h.1 .sopInstance, h.2.1⟩

/-! ## C2: per-tag merge rules and conflict kinds -/

/-- C2: for every scalar tag, folding a fragment that lacks the tag
leaves the accumulator unchanged; if the accumulator lacks it, the value
is copied in; equal values are a no-op; if both hold unequal values,
merge_dataset reports a TagConflict at a genuinely conflicting metadata
tag, while a pixel-payload mismatch reports the distinct
DuplicateDICOM. -/
theorem merge_tag_rules :
    (∀ (src dest : ParsedR) (t : DTag), getTag src t = none →
      merge_tag src dest t = .ok dest) ∧
    (∀ (src dest : ParsedR) (t : DTag) (v : V2), getTag src t = some v →
      getTag dest t = none → merge_tag src dest t = .ok (setTag dest t v)) ∧
    (∀ (src dest : ParsedR) (t : DTag) (v : V2), getTag src t = some v →
      getTag dest t = some v → merge_tag src dest t = .ok dest) ∧
    (∀ (src dest : ParsedR) (t : DTag), t ∈ scalarTags →
      ¬ compat src dest t →
      ∃ t' d, t' ∈ scalarTags ∧ ¬ compat src dest t' ∧
        merge_dataset src dest = (d, some (.tagConflict t'))) ∧
    (∀ src dest : ParsedR, (∀ t ∈ scalarTags, compat src dest t) →
      ¬ compat src dest .pixelData →
      (merge_dataset src dest).2 = some .duplicateDICOM) := by
  refine ⟨?_, ?_, ?_, ?_, ?_⟩
  · intro src dest t h
    unfold merge_tag
    rw [h]
  · intro src dest t v hs hd
    unfold merge_tag
    rw [hs, hd]
  · intro src dest t v hs hd
    unfold merge_tag
    rw [hs, hd]
    simp [setTag_self hd]
  · intro src dest t ht hnc
    exact merge_dataset_scalar_conflict ht hnc
  · intro src dest hc hnc
    exact merge_dataset_pixel_conflict hc hnc

/-- C2 witness: the merge rules applied to concrete fragments, one per
rule: a no-op on an absent source tag, a copy into an absent destination
tag, a no-op on equal values, a TagConflict on a body-part mismatch, and
a DuplicateDICOM on a pixel-payload mismatch with identical metadata. -/
theorem merge_tag_rules_witness :
    merge_tag fragAnnOne fragBase .bodyPart = .ok fragBase ∧
    merge_tag fragBase fragAnnOne .bodyPart =
      .ok (setTag fragAnnOne .bodyPart (.prim (.str "ARM"))) ∧
    merge_tag fragBase fragBase .bodyPart = .ok fragBase ∧
    (merge_dataset fragConflict fragBase).2 ≠ none ∧
    (merge_dataset fragBaseDup fragBase).2 = some .duplicateDICOM := by
  obtain ⟨h1, h2, h3, h4, h5⟩ := merge_tag_rules
  refine ⟨h1 fragAnnOne fragBase .bodyPart rfl,
    h2 fragBase fragAnnOne .bodyPart (.prim (.str "ARM")) rfl rfl,
    h3 fragBase fragBase .bodyPart (.prim (.str "ARM")) rfl rfl, ?_, ?_⟩
  · obtain ⟨t', d, _, _, heq⟩ := h4 fragConflict fragBase .bodyPart
      (by simp [scalarTags])
      (by
        rw [not_compat_iff]
        exact ⟨.prim (.str "LEG"), .prim (.str "ARM"), rfl, rfl, by simp⟩)
    rw [heq]
    simp
  · refine h5 fragBaseDup fragBase ?_ ?_
    · have hcompat : ∀ t ∈ scalarTags,
          getTag fragBaseDup t = getTag fragBase t := by decide
      intro t ht v w hv hw
      rw [hcompat t ht] at hv
      exact Option.some.inj (hv.symm.trans hw)
    · rw [not_compat_iff]
      exact ⟨.prim (.str "b.dcm"), .prim (.str "a.dcm"), rfl, rfl, by simp⟩

/-! ## C3: tolerance behavior on a TagConflict during folding -/

/-- C3 counterexample: under skip_broken, a fragment whose body part
conflicts loses not only the conflicting tag value but also its
windowing values and its annotation, which sit after the body part in
the merge order: the produced row has a false Windowing flag and an
empty annotation list even though the offending fragment carried
windowing values and an annotation. -/
theorem merge_skip_broken_cx :
    fragConflict.center = some (.prim (.num 50)) ∧
    fragConflict.windowWidth = some (.prim (.num 100)) ∧
    fragConflict.annSeq = some [[9, 9, 10, 10, 11, 11, 12, 12, 9, 9]] ∧
    merge_dicom true false [fragBase, fragConflict] =
      .ok [Cell.val (.prim (.str "I")), Cell.val (.prim (.str "S")),
           Cell.val (.prim (.str "T")), Cell.flag false,
           Cell.val (.prim (.str "ARM")), Cell.val (.prim (.num 64)),
           Cell.val (.prim (.num 32)), Cell.val (.prim (.str "a.dcm")),
           Cell.flag false, Cell.flag false, Cell.anns []] :=
  ⟨rfl, rfl, rfl, rfl⟩

/-- C3 amended: when merge_dataset reports a TagConflict for a fragment,
under skip_broken the loop logs and continues folding the remaining
fragments from the accumulator as already partially updated by that
fragment — the conflicting tag, every scalar tag after it in the merge
order, and the fragment's annotations and pixel data are dropped, while
its earlier-position tags were already merged in place; with skip_broken
unset the whole group aborts with MergingError. -/
theorem merge_skip_broken_amended (acc f : ParsedR) (rest : List ParsedR)
    (ig : Bool) (d : ParsedR) (t : DTag)
    (h : merge_dataset f acc = (d, some (.tagConflict t))) :
    mergeLoop true ig acc (f :: rest) = mergeLoop true ig d rest ∧
    mergeLoop false ig acc (f :: rest) = .error .mergingError ∧
    d.annSeq = acc.annSeq ∧ d.pixelData = acc.pixelData ∧ d.ref = acc.ref := by
  obtain ⟨ha, hp, hr⟩ := merge_dataset_conflict_partial h
  refine ⟨?_, ?_, ha, hp, hr⟩
  · rw [mergeLoop, h]
    rfl
  · rw [mergeLoop, h]
    rfl

/-- C3 witness: the amended theorem applied to the concrete conflicting
fragment folded into the accumulator holding fragBase's data. -/
theorem merge_skip_broken_amended_witness :
    mergeLoop true false mergedBase [fragConflict] =
      mergeLoop true false mergedBase [] ∧
    mergeLoop false false mergedBase [fragConflict] =
      .error .mergingError ∧
    mergedBase.annSeq = mergedBase.annSeq := by
  have h := merge_skip_broken_amended mergedBase fragConflict [] false
    mergedBase .bodyPart rfl
  exact ⟨h.1, h.2.1, h.2.2.1⟩

/-! ## C4: the database row projection -/

/-- C4: for every successfully folded merged record, make_database_entry
emits exactly the eleven cells in schema order: instance id, series id,
study id, has-annotation boolean, body part (or the Unknown sentinel when
absent), width, height, pixel-data location, a scaling boolean that is
true iff both intercept and slope are present, a windowing boolean that
is true iff both center and width are present, and the annotation list
with exact-value duplicates removed. -/
theorem make_database_entry_schema (m : ParsedR) (i se st cols rws pd : V2)
    (anns : List (List ℚ))
    (h1 : m.sopInstance = some i) (h2 : m.series = some se)
    (h3 : m.study = some st) (h4 : m.annSeq = some anns)
    (h5 : m.columns = some cols) (h6 : m.rows = some rws)
    (h7 : m.pixelData = some pd) :
    make_database_entry m = .ok
      [Cell.val i, Cell.val se, Cell.val st,
       Cell.flag (decide (0 < anns.length)),
       (match m.bodyPart with
        | some b => Cell.val b
        | none => Cell.val (.prim (.str "Unknown"))),
       Cell.val cols, Cell.val rws, Cell.val pd,
       Cell.flag (m.intercept.isSome && m.slope.isSome),
       Cell.flag (m.center.isSome && m.windowWidth.isSome),
       Cell.anns (remove_duplicates anns)] ∧
    (remove_duplicates anns).Nodup ∧
    (∀ a, a ∈ remove_duplicates anns ↔ a ∈ anns) := by
  refine ⟨?_, List.nodup_dedup anns, fun a => List.mem_dedup⟩
  simp only [make_database_entry, reqTag, reqAnn, h1, h2, h3, h4, h5, h6, h7]
  rfl

/-- C4 witness: the projection theorem evaluated on a concrete merged
record carrying one duplicated annotation. -/
theorem make_database_entry_schema_witness :
    make_database_entry entryIn = .ok
      [Cell.val (.prim (.str "I")), Cell.val (.prim (.str "S")),
       Cell.val (.prim (.str "T")), Cell.flag true,
       Cell.val (.prim (.str "ARM")), Cell.val (.prim (.num 64)),
       Cell.val (.prim (.num 32)), Cell.val (.prim (.str "a.dcm")),
       Cell.flag false, Cell.flag false,
       Cell.anns [[1, 1, 2, 2, 3, 3, 4, 4, 1, 1]]] := by
  have h := make_database_entry_schema entryIn _ _ _ _ _ _ _
    rfl rfl rfl rfl rfl rfl rfl
  rw [h.1]
  rfl

/-! ## Parser inversion lemmas -/

theorem stage_ok {α : Type} {b : Bool} {m : Except PErr α}
    {upd : ParsedR → α → ParsedR} {p q : ParsedR}
    (h : stage b m upd p = .ok q) :
    (b = true ∧ ∃ x, m = .ok x ∧ q = upd p x) ∨ (b = false ∧ q = p) := by
  cases b with
  | false =>
    refine Or.inr ⟨rfl, ?_⟩
    unfold stage at h
    simp only [Bool.false_eq_true, if_false, ite_false] at h
    injection h with h1
    exact h1.symm
  | true =>
    refine Or.inl ⟨rfl, ?_⟩
    unfold stage at h
    simp only [if_true, ite_true] at h
    cases hm : m with
    | error e => rw [hm] at h; cases h
    | ok x =>
      rw [hm] at h
      injection h with h1
      exact ⟨x, rfl, h1.symm⟩

theorem parse_dataset_ref {ds : DS2} {p : ParsedR}
    (h : parse_dataset ds = .ok p) :
    (has_reference ds = true ∧
      ∃ r, parse_reference ds = .ok r ∧ p.ref = some r) ∨
    (has_reference ds = false ∧ p.ref = none) := by
  unfold parse_dataset at h
  cases hc : parse_common ds with
  | error e => rw [hc] at h; cases h
  | ok quad =>
    obtain ⟨c, i, s, st⟩ := quad
    rw [hc] at h
    simp only [bind, Except.bind] at h
    cases h1 : stage (has_annots ds) (parse_annots ds) updAnns
        (commonRecord c i s st) with
    | error e => rw [h1] at h; cases h
    | ok p1 =>
      rw [h1] at h
      simp only at h
      cases h2 : stage (has_misc ds) (parse_misc ds) updMisc p1 with
      | error e => rw [h2] at h; cases h
      | ok p2 =>
        rw [h2] at h
        simp only at h
        cases h3 : stage (has_pixels ds) (parse_pixels ds) updPixels p2 with
        | error e => rw [h3] at h; cases h
        | ok p3 =>
          rw [h3] at h
          simp only at h
          cases h4 : stage (has_reference ds) (parse_reference ds)
              updRef p3 with
          | error e => rw [h4] at h; cases h
          | ok p4 =>
            rw [h4] at h
            simp only at h
            cases h5 : stage (has_scaling ds) (parse_scaling ds)
                updScaling p4 with
            | error e => rw [h5] at h; cases h
            | ok p5 =>
              rw [h5] at h
              simp only at h
              cases h6 : stage (has_windowing ds) (parse_windowing ds)
                  updWindowing p5 with
              | error e => rw [h6] at h; cases h
              | ok p6 =>
                rw [h6] at h
                simp only at h
                injection h with hp
                subst hp
                have hr6 : p6.ref = p5.ref := by
                  rcases stage_ok h6 with ⟨_, x, _, rfl⟩ | ⟨_, rfl⟩ <;> rfl
                have hr5 : p5.ref = p4.ref := by
                  rcases stage_ok h5 with ⟨_, x, _, rfl⟩ | ⟨_, rfl⟩ <;> rfl
                have hr3 : p3.ref = none := by
                  have hb1 : p1.ref = none := by
                    rcases stage_ok h1 with ⟨_, x, _, rfl⟩ | ⟨_, rfl⟩ <;> rfl
                  have hb2 : p2.ref = p1.ref := by
                    rcases stage_ok h2 with ⟨_, x, _, rfl⟩ | ⟨_, rfl⟩ <;> rfl
                  have hb3 : p3.ref = p2.ref := by
                    rcases stage_ok h3 with ⟨_, x, _, rfl⟩ | ⟨_, rfl⟩ <;> rfl
                  rw [hb3, hb2, hb1]
                rcases stage_ok h4 with ⟨hbt, r, hpr, rfl⟩ | ⟨hbf, rfl⟩
                · exact Or.inl ⟨hbt, r, hpr, by rw [hr6, hr5]; rfl⟩
                · exact Or.inr ⟨hbf, by rw [hr6, hr5, hr3]⟩

theorem parse_dicom_ok_inv {fp : String} {ds : DS2} {sb : Bool}
    {p' : ParsedR} (h : parse_dicom fp ds sb = .ok (fp, some p')) :
    ∃ q, parse_dataset ds = .ok q ∧ p' = applyRef (setPixelPath fp q) := by
  unfold parse_dicom at h
  cases hq : parse_dataset ds with
  | ok q =>
    rw [hq] at h
    injection h with h1
    injection h1 with _ h2
    exact ⟨q, rfl, (Option.some.inj h2).symm⟩
  | error e =>
    rw [hq] at h
    cases e <;> simp only [] at h
    case typeMismatch => cases h
    all_goals
      cases sb <;> simp only [Bool.false_eq_true, if_false, if_true,
        ite_true, ite_false] at h
    all_goals cases h

theorem setPixelPath_fields (fp : String) (q : ParsedR) :
    (setPixelPath fp q).columns = q.columns ∧
    (setPixelPath fp q).rows = q.rows ∧
    (setPixelPath fp q).ref = q.ref := by
  unfold setPixelPath
  split <;> exact ⟨rfl, rfl, rfl⟩

theorem setPixelPath_sets {fp : String} {q : ParsedR}
    (hc : q.columns.isSome = true) (hr : q.rows.isSome = true) :
    (setPixelPath fp q).pixelData = some (.prim (.str fp)) := by
  unfold setPixelPath
  rw [hc, hr]
  rfl

theorem applyRef_fields (q : ParsedR) :
    (applyRef q).columns = q.columns ∧ (applyRef q).rows = q.rows ∧
    (applyRef q).pixelData = q.pixelData := by
  unfold applyRef
  cases q.ref <;> exact ⟨rfl, rfl, rfl⟩

theorem applyRef_some {q : ParsedR} {r : RefRecord} (h : q.ref = some r) :
    (applyRef q).sopClass = some (V2.prim r.sopClass) ∧
    (applyRef q).sopInstance = some (V2.prim r.sopInstance) ∧
    (applyRef q).series = some (liftV1 r.series) := by
  unfold applyRef
  rw [h]
  exact ⟨rfl, rfl, rfl⟩

/-! ## C5: reference resolution overwrites the identifiers -/

/-- C5: for any file whose dataset carries a well-formed reference
sequence (has_reference holds and parse_reference succeeds), the record
parse_dicom returns carries the referenced SOP class, SOP instance and
series identifiers in place of the parsed common ones, so organize_parsed
subsequently groups it under the owner's (SOP instance id, series id)
identity key. -/
theorem parse_reference_overwrites (fp : String) (ds : DS2) (sb : Bool)
    (r : RefRecord) (p' : ParsedR)
    (h1 : has_reference ds = true) (h2 : parse_reference ds = .ok r)
    (h4 : parse_dicom fp ds sb = .ok (fp, some p')) :
    p'.sopClass = some (V2.prim r.sopClass) ∧
    p'.sopInstance = some (V2.prim r.sopInstance) ∧
    p'.series = some (liftV1 r.series) ∧
    organizeKey p' = some (V2.prim r.sopInstance, liftV1 r.series) := by
  obtain ⟨q, hq, hp⟩ := parse_dicom_ok_inv h4
  rcases parse_dataset_ref hq with ⟨_, r', hr', href⟩ | ⟨hfalse, _⟩
  · have hrr : r' = r := Except.ok.inj (hr'.symm.trans h2)
    subst hrr
    have hsp : (setPixelPath fp q).ref = some r' := by
      rw [(setPixelPath_fields fp q).2.2, href]
    obtain ⟨ha, hb, hc⟩ := applyRef_some hsp
    subst hp
    refine ⟨ha, hb, hc, ?_⟩
    unfold organizeKey
    rw [hb, hc]
  · rw [h1] at hfalse
    cases hfalse

/-- C5 witness: the overwrite theorem evaluated on the concrete
referencing dataset. -/
theorem parse_reference_overwrites_witness :
    parse_dicom "f.dcm" dsWithRef false = .ok ("f.dcm", some parsedWithRef) ∧
    parsedWithRef.sopInstance = some (.prim (.str "RI")) ∧
    parsedWithRef.series = some (.prim (.str "RS")) ∧
    organizeKey parsedWithRef =
      some (.prim (.str "RI"), .prim (.str "RS")) := by
  have h := parse_reference_overwrites "f.dcm" dsWithRef false
    ⟨.str "RC", .str "RI", .prim (.str "RS")⟩ parsedWithRef rfl rfl rfl
  exact ⟨rfl, h.2.1, h.2.2.1, h.2.2.2⟩

/-! ## C10: pixel identity is decided by file path alone -/

/-- C10: parse_dicom stores each record's own source file path under the
pixel payload tag whenever the record carries pixel geometry, so merging
two such records (identical in every scalar metadata tag) raises
DuplicateDICOM exactly when the file paths differ — the pixel buffers
themselves are never read or compared by the merger. -/
theorem pixel_conflict_by_path (fp1 fp2 : String) (ds1 ds2 : DS2)
    (sb1 sb2 : Bool) (p1 p2 : ParsedR)
    (h1 : parse_dicom fp1 ds1 sb1 = .ok (fp1, some p1))
    (h2 : parse_dicom fp2 ds2 sb2 = .ok (fp2, some p2))
    (hc1 : p1.columns.isSome = true) (hr1 : p1.rows.isSome = true)
    (hc2 : p2.columns.isSome = true) (hr2 : p2.rows.isSome = true)
    (hcompat : ∀ t ∈ scalarTags, compat p2 p1 t) :
    p1.pixelData = some (.prim (.str fp1)) ∧
    p2.pixelData = some (.prim (.str fp2)) ∧
    (fp1 ≠ fp2 → (merge_dataset p2 p1).2 = some .duplicateDICOM) ∧
    (fp1 = fp2 → (merge_dataset p2 p1).2 = none) := by
  have hpath : ∀ (fp : String) (ds : DS2) (sb : Bool) (p : ParsedR),
      parse_dicom fp ds sb = .ok (fp, some p) → p.columns.isSome = true →
      p.rows.isSome = true → p.pixelData = some (.prim (.str fp)) := by
    intro fp ds sb p h hc hr
    obtain ⟨q, _, hp⟩ := parse_dicom_ok_inv h
    subst hp
    have hqc : q.columns.isSome = true := by
      rw [← (setPixelPath_fields fp q).1, ← (applyRef_fields _).1]
      exact hc
    have hqr : q.rows.isSome = true := by
      rw [← (setPixelPath_fields fp q).2.1, ← (applyRef_fields _).2.1]
      exact hr
    rw [(applyRef_fields _).2.2]
    exact setPixelPath_sets hqc hqr
  have hp1 := hpath fp1 ds1 sb1 p1 h1 hc1 hr1
  have hp2 := hpath fp2 ds2 sb2 p2 h2 hc2 hr2
  refine ⟨hp1, hp2, ?_, ?_⟩
  · intro hne
    refine merge_dataset_pixel_conflict hcompat ?_
    rw [not_compat_iff]
    refine ⟨.prim (.str fp2), .prim (.str fp1), hp2, hp1, ?_⟩
    intro hv
    injection hv with hv
    injection hv with hv
    exact hne hv.symm
  · intro heq
    subst heq
    refine merge_dataset_ok_of_compat ?_
    intro u
    rcases dtag_scalar_or_pixel u with hu | hu
    · exact hcompat u hu
    · subst hu
      intro v w hv hw
      rw [getTag_pixelData, hp2] at hv
      rw [getTag_pixelData, hp1] at hw
      exact (Option.some.inj hv).symm.trans (Option.some.inj hw)

/-- C10 witness: the same pixel-bearing dataset parsed from two
different paths merges to a DuplicateDICOM, and from the same path it
merges cleanly. -/
theorem pixel_conflict_by_path_witness :
    (parsedPix "f1.dcm").pixelData = some (.prim (.str "f1.dcm")) ∧
    (merge_dataset (parsedPix "f2.dcm") (parsedPix "f1.dcm")).2 =
      some .duplicateDICOM ∧
    (merge_dataset (parsedPix "f1.dcm") (parsedPix "f1.dcm")).2 = none := by
  have hcompat : ∀ t ∈ scalarTags,
      getTag (parsedPix "f2.dcm") t = getTag (parsedPix "f1.dcm") t := by
    decide
  have h := pixel_conflict_by_path "f1.dcm" "f2.dcm" dsWithPixels dsWithPixels
    true true (parsedPix "f1.dcm") (parsedPix "f2.dcm") rfl rfl rfl rfl rfl rfl
    (by
      intro t ht v w hv hw
      rw [hcompat t ht] at hv
      exact Option.some.inj (hv.symm.trans hw))
  have h2 := pixel_conflict_by_path "f1.dcm" "f1.dcm" dsWithPixels dsWithPixels
    true true (parsedPix "f1.dcm") (parsedPix "f1.dcm") rfl rfl rfl rfl rfl rfl
    (fun t _ v w hv hw => Option.some.inj (hv.symm.trans hw))
  exact ⟨h.1, h.2.2.1 (by decide), h2.2.2.2 rfl⟩

/-! ## C6: annotation validity and parse_annotations failure -/

theorem parseObjList_ok :
    ∀ objs : List DS0,
      (∀ obj ∈ objs, ∃ l, dsGet obj ANN_DATA = some (.lst l)) →
      ∃ xs, parseObjList objs = .ok xs ∧ xs.length = objs.length
  | [], _ => ⟨[], rfl, rfl⟩
  | obj :: objs, h => by
    obtain ⟨l, hl⟩ := h obj (List.mem_cons_self obj objs)
    obtain ⟨xs, hxs, hlen⟩ :=
      parseObjList_ok objs (fun o ho => h o (List.mem_cons_of_mem obj ho))
    refine ⟨l :: xs, ?_, by simp [hlen]⟩
    have hpa : parse_annot obj = .ok l := by
      unfold parse_annot
      rw [hl]
    rw [parseObjList]
    rw [hpa]
    simp only [bind, Except.bind]
    rw [hxs]

theorem collectAnns_ok :
    ∀ items : List DS1,
      (∀ obj ∈ allObjs items, ∃ l, dsGet obj ANN_DATA = some (.lst l)) →
      ∃ xs, collectAnns items = .ok xs ∧ xs.length = (allObjs items).length
  | [], _ => ⟨[], rfl, rfl⟩
  | item :: items, h => by
    have hsplit : ∀ obj ∈ objsOfItem item,
        ∃ l, dsGet obj ANN_DATA = some (.lst l) := by
      intro o ho
      refine h o ?_
      unfold allObjs
      rw [List.flatMap_cons]
      exact List.mem_append_left _ ho
    have hrest : ∀ obj ∈ allObjs items,
        ∃ l, dsGet obj ANN_DATA = some (.lst l) := by
      intro o ho
      refine h o ?_
      unfold allObjs at ho ⊢
      rw [List.flatMap_cons]
      exact List.mem_append_right _ ho
    obtain ⟨xs, hxs, hxlen⟩ := parseObjList_ok (objsOfItem item) hsplit
    obtain ⟨ys, hys, hylen⟩ := collectAnns_ok items hrest
    refine ⟨xs ++ ys, ?_, ?_⟩
    · rw [collectAnns]
      rw [hxs]
      simp only [bind, Except.bind]
      rw [hys]
    · unfold allObjs
      rw [List.flatMap_cons, List.length_append, List.length_append,
        hxlen, hylen]
      rfl

/-- C6 amended: a malformed annotation object (wrong or missing
count/dimensions/type/units, or data length not 10) is excluded from the
has-annotations determination, and — provided it still carries its data
element — it does not abort parsing and is included, unvalidated, in the
parse result; parse_annotations fails, and fails with MissingTag,
exactly when it collects zero annotation objects, whatever their
validity. -/
theorem annot_rules_amended :
    (∀ obj : DS0,
      (∀ pv, dsGet obj ANN_DATA = some pv → ∃ l, pv = PVal.lst l) →
      has_annot obj = specWellFormedAnnot obj) ∧
    (∀ (ds : DS2) (items : List DS1),
      dsGet ds ANN_SEQ = some (.sq items) →
      (∀ obj ∈ allObjs items, ∃ l, dsGet obj ANN_DATA = some (.lst l)) →
      ((parse_annots ds = .error (.missingTag ANN_OBJECT)) ↔
        allObjs items = []) ∧
      (allObjs items ≠ [] → ∃ anns, parse_annots ds = .ok anns ∧
        anns.length = (allObjs items).length)) := by
  constructor
  · intro obj hdata
    unfold has_annot specWellFormedAnnot
    cases hD : dsGet obj ANN_DATA with
    | none => simp [hD]
    | some pv =>
      obtain ⟨l, rfl⟩ := hdata pv hD
      rw [Bool.eq_iff_iff]
      simp only [hD, pvLen, Bool.and_eq_true, beq_iff_eq,
        Option.isSome_iff_exists, Option.map_some, Option.some.injEq]
      constructor
      · rintro ⟨⟨⟨⟨⟨⟨⟨⟨⟨-, -⟩, -⟩, -⟩, -⟩, hc⟩, hd⟩, ht⟩, hu⟩, hlen⟩
        exact ⟨⟨⟨⟨hc, hd⟩, ht⟩, hu⟩, by simpa [pvLen] using hlen⟩
      · rintro ⟨⟨⟨⟨hc, hd⟩, ht⟩, hu⟩, hlen⟩
        refine ⟨⟨⟨⟨⟨⟨⟨⟨⟨⟨_, hc⟩, _, rfl⟩, ⟨_, hd⟩⟩, ⟨_, ht⟩⟩, ⟨_, hu⟩⟩,
          hc⟩, hd⟩, ht⟩, hu⟩, by simp [pvLen, hlen]⟩
  · intro ds items hseq hdata
    have hgs : getSeq2 ds ANN_SEQ = .ok items := by
      unfold getSeq2
      rw [hseq]
    obtain ⟨xs, hxs, hlen⟩ := collectAnns_ok items hdata
    have hpa : parse_annots ds =
        if xs.isEmpty then .error (.missingTag ANN_OBJECT) else .ok xs := by
      unfold parse_annots
      rw [hgs]
      simp only [bind, Except.bind]
      rw [hxs]
    constructor
    · constructor
      · intro herr
        cases hxs0 : xs with
        | nil =>
          rw [hxs0, List.length_nil] at hlen
          cases hobj : allObjs items with
          | nil => rfl
          | cons a as => rw [hobj] at hlen; simp at hlen
        | cons a as =>
          rw [hpa, hxs0] at herr
          simp at herr
      · intro hobjs
        have hxe : xs.isEmpty = true := by
          cases hxs0 : xs with
          | nil => rfl
          | cons a as =>
            rw [hxs0, hobjs, List.length_nil] at hlen
            simp at hlen
        rw [hpa, if_pos hxe]
    · intro hne
      have hxe : xs.isEmpty = false := by
        cases hxs0 : xs with
        | nil =>
          rw [hxs0, List.length_nil] at hlen
          cases hobj : allObjs items with
          | nil => exact absurd hobj hne
          | cons a as => rw [hobj] at hlen; simp at hlen
        | cons a as => rfl
      rw [hpa, hxe]
      simp only [Bool.false_eq_true, if_false, ite_false]
      exact ⟨xs, rfl, hlen⟩

/-- C6 counterexample: a dataset whose single annotation object is
malformed (count 4) but carries a 10-value data element: it contributes
no valid annotation (has_annotations is false), yet parse_annotations
succeeds with that object's data instead of failing with MissingTag. -/
theorem annot_zero_valid_cx :
    has_annots dsMalformedAnn = false ∧
    has_annot objMalformed = false ∧
    parse_annots dsMalformedAnn = .ok [[1, 2, 3, 4, 5, 6, 7, 8, 9, 10]] :=
  ⟨rfl, rfl, rfl⟩

/-- C6 witness: the amended theorem applied to the malformed concrete
object and dataset. -/
theorem annot_rules_amended_witness :
    has_annot objMalformed = specWellFormedAnnot objMalformed ∧
    ¬ (parse_annots dsMalformedAnn = .error (.missingTag ANN_OBJECT)) := by
  obtain ⟨h1, h2⟩ := annot_rules_amended
  have hdata : ∀ obj ∈ allObjs [[(ANN_OBJECT, .sq [objMalformed])]],
      ∃ l, dsGet obj ANN_DATA = some (.lst l) := by
    intro obj hobj
    have : obj = objMalformed := by
      simpa [allObjs, objsOfItem, dsGet] using hobj
    subst this
    exact ⟨[1, 2, 3, 4, 5, 6, 7, 8, 9, 10], rfl⟩
  refine ⟨h1 objMalformed ?_, ?_⟩
  · intro pv hpv
    refine ⟨[1, 2, 3, 4, 5, 6, 7, 8, 9, 10], ?_⟩
    have hr : dsGet objMalformed ANN_DATA =
        some (.lst [1, 2, 3, 4, 5, 6, 7, 8, 9, 10]) := rfl
    rw [hr] at hpv
    exact (Option.some.inj hpv).symm
  · have h3 := h2 dsMalformedAnn [[(ANN_OBJECT, .sq [objMalformed])]]
      rfl hdata
    intro herr
    have := h3.1.mp herr
    simp [allObjs, objsOfItem, dsGet] at this
